/-
Verification of the Load-Assignment dispatch-simulation core.

This file gives a shallow embedding, over the real numbers, of the
geospatial and simulation functions of the repository:

  * `src/lib/directions.ts`   — haversine distance, bearing,
    point-to-segment and point-to-polygon distance;
  * `src/lib/simulation.ts`   — `interpolatePosition`, `calculateETA`,
    `checkForStoppage`, `updateProgress`;
  * the dashboard simulation loop (`simulationTick`, `handleReset`) —
    geofence and redzone detection with one-shot latches;
  * the detour route builder (`POST /api/directions/detour`) — entry/exit
    index search, candidate selection and the 3 km clearance validation.

JavaScript numbers are modelled as exact reals; `Infinity` (used by
`distanceToPolygon` and the candidate search) is modelled by `(⊤ : EReal)`.
Theorems about these definitions follow at the end of the file.
-/
import Mathlib

noncomputable section

namespace LoadAssign

/-- A WGS84 coordinate pair `{lat, lng}` in degrees. -/
structure Point where
  lat : ℝ
  lng : ℝ

instance : Inhabited Point := ⟨⟨0, 0⟩⟩

/-- `toRad` from `src/lib/directions.ts`: degrees to radians. -/
def toRad (degrees : ℝ) : ℝ := degrees * (Real.pi / 180)

/-- JavaScript `Math.atan2 y x` on exact reals (signed zeros collapsed:
`atan2 0 0 = 0`, matching `Math.atan2(+0, +0)`). -/
def atan2 (y x : ℝ) : ℝ :=
  if 0 < x then Real.arctan (y / x)
  else if x < 0 then
    (if 0 ≤ y then Real.arctan (y / x) + Real.pi else Real.arctan (y / x) - Real.pi)
  else
    (if 0 < y then Real.pi / 2 else if y < 0 then -(Real.pi / 2) else 0)

/-- JavaScript truncation toward zero, as used by the `%` operator. -/
def jsTrunc (q : ℝ) : ℤ := if 0 ≤ q then ⌊q⌋ else ⌈q⌉

/-- JavaScript remainder `a % b` on reals (sign follows the dividend). -/
def jsMod (a b : ℝ) : ℝ := a - b * (jsTrunc (a / b) : ℝ)

/-- `calculateDistance` from `src/lib/directions.ts` (lines 80–99):
haversine great-circle distance in km, Earth radius 6371. -/
def calculateDistance (point1 point2 : Point) : ℝ :=
  let dLat := toRad (point2.lat - point1.lat)
  let dLng := toRad (point2.lng - point1.lng)
  let a := Real.sin (dLat / 2) * Real.sin (dLat / 2) +
    Real.cos (toRad point1.lat) * Real.cos (toRad point2.lat) *
      Real.sin (dLng / 2) * Real.sin (dLng / 2)
  let c := 2 * atan2 (Real.sqrt a) (Real.sqrt (1 - a))
  6371 * c

/-- `calculateBearing` from `src/lib/directions.ts`: initial bearing in
degrees, normalised by `(degrees + 360) % 360`. -/
def calculateBearing (start stop : Point) : ℝ :=
  let startLat := toRad start.lat
  let startLng := toRad start.lng
  let endLat := toRad stop.lat
  let endLng := toRad stop.lng
  let dLng := endLng - startLng
  let y := Real.sin dLng * Real.cos endLat
  let x := Real.cos startLat * Real.sin endLat -
    Real.sin startLat * Real.cos endLat * Real.cos dLng
  let bearing := atan2 y x
  let degrees := bearing * 180 / Real.pi
  jsMod (degrees + 360) 360

/-- `distanceToSegment` from `src/lib/directions.ts`: haversine-based
distance from a point to a line segment. -/
def distanceToSegment (point segStart segEnd : Point) : ℝ :=
  let distToStart := calculateDistance point segStart
  let distToEnd := calculateDistance point segEnd
  let distSegment := calculateDistance segStart segEnd
  if distSegment < 0.001 then distToStart
  else
    let bearingStartToEnd := calculateBearing segStart segEnd
    let bearingStartToPoint := calculateBearing segStart point
    let angleDiff := |bearingStartToEnd - bearingStartToPoint|
    let angleRad := toRad (min angleDiff (360 - angleDiff))
    let perpendicularDist := distToStart * Real.sin angleRad
    let distAlongSegment := distToStart * Real.cos angleRad
    if distAlongSegment < 0 then distToStart
    else if distSegment < distAlongSegment then distToEnd
    else |perpendicularDist|

/-- The closed edge list of a polygon: `(polygon[i], polygon[(i+1) % n])`
for `i < n`, exactly as the loop in `distanceToPolygon` walks it. -/
def polygonEdges (polygon : List Point) : List (Point × Point) :=
  (List.range polygon.length).map fun i =>
    (polygon.getD i default, polygon.getD ((i + 1) % polygon.length) default)

/-- `distanceToPolygon` from `src/lib/directions.ts` (lines 169–192):
minimum distance to any closed edge; returns `Infinity` (here `⊤ : EReal`)
when the polygon has fewer than 3 points.  The fold with initial value `⊤`
models `let minDistance = Infinity` followed by `Math.min` over the loop. -/
def distanceToPolygon (point : Point) (polygon : List Point) : EReal :=
  if polygon.length < 3 then ⊤
  else ((polygonEdges polygon).map
    fun e => ((distanceToSegment point e.1 e.2 : ℝ) : EReal)).foldl min ⊤

/-! ### `src/lib/simulation.ts` -/

/-- A stoppage along the route (`src/lib/simulation.ts`). -/
structure Stoppage where
  position : ℝ
  duration : ℝ
  triggered : Bool
deriving DecidableEq

/-- `calculateSimpleDistance` from `src/lib/simulation.ts`: planar
approximation with the longitude scaled by `cos` of the mean latitude. -/
def calculateSimpleDistance (p1 p2 : Point) : ℝ :=
  let dLat := p2.lat - p1.lat
  let dLng := p2.lng - p1.lng
  let latMid := (p1.lat + p2.lat) / 2
  let latScale := Real.cos (latMid * Real.pi / 180)
  Real.sqrt (dLat * dLat + (dLng * latScale) * (dLng * latScale))

/-- The consecutive segment lengths of a path, in order. -/
def segDists : List Point → List ℝ
  | p :: q :: rest => calculateSimpleDistance p q :: segDists (q :: rest)
  | _ => []

/-- The cumulative distance table `distances` built by `interpolatePosition`:
`[0, d₁, d₁+d₂, …]`. -/
def cumDists (points : List Point) : List ℝ :=
  (segDists points).scanl (fun acc d => acc + d) 0

/-- The total path length accumulated by `interpolatePosition`. -/
def totalSimpleDistance (points : List Point) : ℝ :=
  (segDists points).foldl (fun acc d => acc + d) 0

/-- Index of the first entry of a list that is `≥ target`
(`none` when every entry is smaller). -/
def firstLE (target : ℝ) : List ℝ → Option ℕ
  | [] => none
  | d :: rest => if target ≤ d then some 0 else (firstLE target rest).map (· + 1)

/-- The bracketing-segment search of `interpolatePosition`
(`for i = 1; …; if (targetDistance <= distances[i])`): the first index
`i ≥ 1` of the cumulative table with `target ≤ distances[i]`. -/
def findSegmentIdx (dists : List ℝ) (target : ℝ) : Option ℕ :=
  (firstLE target dists.tail).map (· + 1)

/-- `interpolatePosition` from `src/lib/simulation.ts` (lines 52–94).
The empty-points throw is modelled by `none`. -/
def interpolatePosition (points : List Point) (progress : ℝ) : Option Point :=
  match points with
  | [] => none
  | p :: ps =>
    if progress ≤ 0 then some p
    else if 1 ≤ progress then some ((p :: ps).getLast (List.cons_ne_nil p ps))
    else
      let dists := cumDists (p :: ps)
      let targetDistance := progress * totalSimpleDistance (p :: ps)
      match findSegmentIdx dists targetDistance with
      | some i =>
        let segmentStart := dists.getD (i - 1) 0
        let segmentEnd := dists.getD i 0
        let segmentProgress := (targetDistance - segmentStart) / (segmentEnd - segmentStart)
        let p1 := (p :: ps).getD (i - 1) default
        let p2 := (p :: ps).getD i default
        some ⟨p1.lat + (p2.lat - p1.lat) * segmentProgress,
              p1.lng + (p2.lng - p1.lng) * segmentProgress⟩
      | none => some ((p :: ps).getLast (List.cons_ne_nil p ps))

/-- `calculateETA` from `src/lib/simulation.ts` (lines 151–159): ETA in
minutes from the remaining distance and the adjusted speed.  No input
validation is performed by the source. -/
def calculateETA (remainingDistanceKm baseSpeedKmh speedMultiplier : ℝ) : ℝ :=
  let adjustedSpeed := baseSpeedKmh * speedMultiplier
  let etaHours := remainingDistanceKm / adjustedSpeed
  etaHours * 60

/-- `checkForStoppage` from `src/lib/simulation.ts` (lines 167–178): the
first untriggered stoppage within `0.005` of the current progress. -/
def checkForStoppage (progress : ℝ) : List Stoppage → Option Stoppage
  | [] => none
  | s :: rest =>
    if s.triggered = false ∧ |progress - s.position| < 0.005 then some s
    else checkForStoppage progress rest

/-- `updateProgress` from `src/lib/simulation.ts` (lines 189–206): advance
progress, capping the increment at `0.01` and the result at `1`.  No input
validation is performed by the source. -/
def updateProgress (currentProgress deltaTimeSeconds totalDistanceKm
    speedMultiplier baseSpeedKmh : ℝ) : ℝ :=
  let adjustedSpeed := baseSpeedKmh * speedMultiplier
  let distanceTraveledKm := adjustedSpeed / 3600 * deltaTimeSeconds
  let progressDelta := distanceTraveledKm / totalDistanceKm
  let maxProgressDelta : ℝ := 0.01
  let cappedProgressDelta := min progressDelta maxProgressDelta
  min (currentProgress + cappedProgressDelta) 1

/-! ### Dashboard simulation loop (`simulationTick`, `handleReset`) -/

/-- Zone categories from `src/types/index.ts`. -/
inductive ZoneCategory
  | THEFT | PILFERAGE | STOPPAGE | HIGH_RISK | ACCIDENT_PRONE
  | TRAFFIC_CONGESTION | CUSTOM
deriving DecidableEq

/-- A risk zone: identity, category and polygon coordinates. -/
structure Zone where
  id : String
  name : String
  category : ZoneCategory
  coordinates : List Point

/-- Journey status from `src/types/index.ts`. -/
inductive JourneyStatus
  | NOT_STARTED | IN_TRANSIT | NEAR_DESTINATION | UNLOADING
  | COMPLETED | STOPPAGE | AT_RISK
deriving DecidableEq

/-- `GEOFENCE_RADIUS_KM` from the dashboard page. -/
def GEOFENCE_RADIUS_KM : ℝ := 10

/-- `BASE_SPEED_KMH` from the dashboard page. -/
def BASE_SPEED_KMH : ℝ := 120

/-- The category filter of the redzone check:
`z.category === 'HIGH_RISK' || z.category === 'THEFT' || z.category === 'PILFERAGE'`. -/
def isRedzoneCategory (c : ZoneCategory) : Bool :=
  c = ZoneCategory.HIGH_RISK ∨ c = ZoneCategory.THEFT ∨ c = ZoneCategory.PILFERAGE

/-- The loop body of the redzone proximity check: for each zone (already
filtered by category), if it has at least 3 coordinates, compare
`Math.min(calculateDistance(position, zone.coordinates[0]),
distanceToPolygon(position, zone.coordinates))` against 10 km, firing on
the first hit (`break`). -/
def findRedzoneHit (position : Point) : List Zone → Option Zone
  | [] => none
  | z :: zs =>
    if 3 ≤ z.coordinates.length ∧
        min ((calculateDistance position (z.coordinates.getD 0 default) : ℝ) : EReal)
          (distanceToPolygon position z.coordinates) ≤ (10 : EReal) then
      some z
    else findRedzoneHit position zs

/-- The redzone proximity check of `simulationTick` (dashboard page,
lines 338–396): guarded by no latched alert, not on detour, and a
non-empty zone list; scans the category-filtered zones and returns the
zone fired upon, if any. -/
def redzoneCheck (position : Point) (redzoneAlertTriggered : Option String)
    (isOnDetour : Bool) (zones : List Zone) : Option Zone :=
  if redzoneAlertTriggered = none ∧ isOnDetour = false ∧ 0 < zones.length then
    findRedzoneHit position (zones.filter fun z => isRedzoneCategory z.category)
  else none

/-- Sum of consecutive haversine distances along a path, as the tick
recomputes the total distance of a detour route. -/
def sumConsecutiveDistances : List Point → ℝ
  | p :: q :: rest => calculateDistance p q + sumConsecutiveDistances (q :: rest)
  | _ => 0

/-- Mark the first untriggered stoppage within `0.005` of `progress` as
triggered: the tick's `stoppage.triggered = true` mutates the object held
inside the `stoppages` array. -/
def markTriggered (progress : ℝ) : List Stoppage → List Stoppage
  | [] => []
  | s :: rest =>
    if s.triggered = false ∧ |progress - s.position| < 0.005 then
      { s with triggered := true } :: rest
    else s :: markTriggered progress rest

/-- The dashboard simulation state (the `useState` hooks read and written
by `simulationTick` and `handleReset`). -/
structure SimState where
  hasJourney : Bool
  isSimulating : Bool
  speed : ℝ
  progress : ℝ
  routePath : List Point
  totalDistanceKm : ℝ
  stoppages : List Stoppage
  currentStoppage : Option Stoppage
  stoppageTimer : Option ℝ
  journeyStatus : JourneyStatus
  geofenceEntered : Bool
  isInGeofence : Bool
  redzoneAlertTriggered : Option String
  redzoneZone : Option Zone
  isOnDetour : Bool
  detourRoute : Option (List Point)
  truckPosition : Point
  origin : Point
  destination : Point
  zones : List Zone

/-- What a tick did besides updating state: whether the geofence "entered"
action fired, which zone (if any) fired a redzone alert, and arrival. -/
structure TickResult where
  state : SimState
  geofenceFired : Bool
  redzoneFired : Option String
  arrived : Bool

/-- The geofence / redzone / arrival tail of `simulationTick` (dashboard
page, lines 297–447), once the current `position` and `newProgress` have
been computed: geofence check with one-shot latch, redzone check with
one-shot latch, arrival check. -/
def tickMain (s : SimState) (position : Point) (newProgress : ℝ) : TickResult :=
  let distanceToDestination := calculateDistance position s.destination
  let inGeofence := distanceToDestination ≤ GEOFENCE_RADIUS_KM
  let gFire := inGeofence ∧ s.geofenceEntered = false
  let s1 :=
    if gFire then
      { s with geofenceEntered := true, isSimulating := false,
               journeyStatus := JourneyStatus.NEAR_DESTINATION }
    else s
  let s2 := { s1 with progress := newProgress, truckPosition := position,
                      isInGeofence := decide inGeofence }
  let rz := redzoneCheck position s.redzoneAlertTriggered s.isOnDetour s.zones
  let s3 :=
    match rz with
    | some z =>
      { s2 with redzoneAlertTriggered := some z.id, isSimulating := false,
                journeyStatus := JourneyStatus.NEAR_DESTINATION,
                redzoneZone := some z }
    | none => s2
  let s4 :=
    if 1 ≤ newProgress then
      { s3 with isSimulating := false, journeyStatus := JourneyStatus.UNLOADING }
    else s3
  ⟨s4, decide gFire, rz.map Zone.id, decide (1 ≤ newProgress)⟩

/-- `simulationTick` from the dashboard page (lines 190–447), restricted to
the modelled state.  Control flow follows the source: guard, new-stoppage
branch (early return), active-stoppage branch (early return), progress
update, interpolation (a `none` models the `interpolatePosition` throw on
an empty active route, reached only with an empty detour route), geofence
check with one-shot latch, redzone check with one-shot latch, arrival. -/
def simulationTick (s : SimState) (deltaSeconds : ℝ) : TickResult :=
  if s.hasJourney = false ∨ s.isSimulating = false ∨ s.routePath.length = 0 then
    ⟨s, false, none, false⟩
  else
    match checkForStoppage s.progress s.stoppages with
    | some st =>
      ⟨{ s with stoppages := markTriggered s.progress s.stoppages,
                currentStoppage := some { st with triggered := true },
                stoppageTimer := some st.duration,
                journeyStatus := JourneyStatus.STOPPAGE },
       false, none, false⟩
    | none =>
      match s.currentStoppage, s.stoppageTimer with
      | some _, some t =>
        let newTimer := t - deltaSeconds * s.speed
        if newTimer ≤ 0 then
          ⟨{ s with currentStoppage := none, stoppageTimer := none,
                    journeyStatus := JourneyStatus.IN_TRANSIT }, false, none, false⟩
        else
          ⟨{ s with stoppageTimer := some newTimer }, false, none, false⟩
      | _, _ =>
        let activeRoute :=
          match s.isOnDetour, s.detourRoute with
          | true, some d => d
          | _, _ => s.routePath
        let activeTotalDistance :=
          match s.isOnDetour, s.detourRoute with
          | true, some d => if 1 < d.length then sumConsecutiveDistances d else s.totalDistanceKm
          | _, _ => s.totalDistanceKm
        let newProgress :=
          updateProgress s.progress deltaSeconds activeTotalDistance s.speed BASE_SPEED_KMH
        match interpolatePosition activeRoute newProgress with
        | none => ⟨{ s with progress := newProgress }, false, none, false⟩
        | some position => tickMain s position newProgress

/-- `handleReset` from the dashboard page (lines 814–851), restricted to
the modelled state.  The regenerated random stoppages are supplied as an
argument.  Note the source does not clear `redzoneAlertTriggered`. -/
def handleReset (s : SimState) (newStoppages : List Stoppage) : SimState :=
  { s with isSimulating := false, progress := 0,
           journeyStatus := JourneyStatus.NOT_STARTED,
           currentStoppage := none, stoppageTimer := none,
           isInGeofence := false, geofenceEntered := false,
           truckPosition := s.origin, stoppages := newStoppages }

/-- Run a sequence of ticks from a state, counting geofence fires. -/
def runTicks (s : SimState) : List ℝ → SimState × ℕ
  | [] => (s, 0)
  | d :: rest =>
    let r := simulationTick s d
    let t := runTicks r.state rest
    (t.1, (if r.geofenceFired then 1 else 0) + t.2)

/-! ### Detour route builder (`POST /api/directions/detour`) -/

/-- First index `i` with `s ≤ i < n` satisfying `p`, scanning upward —
the shape of every index search loop in the detour builder. -/
def firstIdx (p : ℕ → Bool) (s n : ℕ) : Option ℕ :=
  (List.range' s (n - s)).find? p

/-- The entry/exit index search of the detour builder (detour route
handler, lines 56–94) for one zone: scanning the original route forward
from `startIndex`, the first point within 10 km of the zone polygon fixes
the approach; the entry index comes from a backward window search
(`for j = max(startIndex, i-20); j < i`) for the first point more than
15 km away, with fallback `max(startIndex, i-15)`; the exit index is the
first subsequent point more than 15 km away (refined by a bounded forward
search, with fallbacks).  Returns `none` when the route never comes within
10 km. -/
def findZoneSegment (route zone : List Point) (startIndex : ℕ) : Option (ℕ × ℕ) :=
  let n := route.length
  let d := fun i => distanceToPolygon (route.getD i default) zone
  match firstIdx (fun i => decide (d i ≤ (10 : EReal))) startIndex n with
  | none => none
  | some i0 =>
    let entryIndex :=
      match firstIdx (fun j => decide ((15 : EReal) < d j)) (max startIndex (i0 - 20)) i0 with
      | some j => j
      | none => max startIndex (i0 - 15)
    match firstIdx (fun i => decide ((15 : EReal) < d i)) i0 n with
    | some i1 =>
      let exitIndex :=
        match firstIdx (fun j => decide ((15 : EReal) < d j)) i1 (min n (i1 + 20)) with
        | some j => j
        | none => min (n - 1) (i1 + 10)
      some (entryIndex, exitIndex)
    | none =>
      some (entryIndex, min (n - 1) (entryIndex + ⌊((n : ℝ) - (entryIndex : ℝ)) * 0.3⌋₊))

/-- The inner point scan of the route validation (detour route handler,
lines 191–201 and 310–317): walk the route points, `break`ing invalid on
the first point within 3 km of the polygon. -/
def scanPointsValid (coords : List Point) : List Point → Bool
  | [] => true
  | p :: rest =>
    if distanceToPolygon p coords ≤ (3 : EReal) then false
    else scanPointsValid coords rest

/-- The 3 km clearance validation of the detour builder (detour route
handler, lines 191–204 for each candidate and 306–320 for the assembled
route): every zone with at least 3 coordinates must have every route point
more than 3 km from its polygon. -/
def validateRoute (route : List Point) : List Zone → Bool
  | [] => true
  | z :: zs =>
    if 3 ≤ z.coordinates.length then
      if scanPointsValid z.coordinates route then validateRoute route zs else false
    else validateRoute route zs

/-- The candidate-selection fold of the detour builder (lines 167–218):
candidates (the Mapbox route for each tested waypoint, with its reported
total distance) are scanned in test order; a candidate is kept only when
it passes the 3 km validation and is shorter than the best so far
(`bestDistance` starts at `Infinity`). -/
def pickBestAux (zones : List Zone) (bestRoute : Option (List Point))
    (bestDistance : EReal) : List (List Point × ℝ) → Option (List Point)
  | [] => bestRoute
  | c :: rest =>
    if validateRoute c.1 zones = true ∧ ((c.2 : ℝ) : EReal) < bestDistance then
      pickBestAux zones (some c.1) (c.2 : ℝ) rest
    else pickBestAux zones bestRoute bestDistance rest

/-- `bestRoute` after the candidate loop of the detour builder. -/
def pickBest (zones : List Zone) (candidates : List (List Point × ℝ)) :
    Option (List Point) :=
  pickBestAux zones none ⊤ candidates

/-- Modelled from the spec: the spec's "zoneCentroid" — the arithmetic
mean of the zone's coordinates.  The source tick instead uses
`zone.coordinates[0]`; this definition exists only to compare the spec's
wording with the source behaviour. -/
def specZoneCentroid (coords : List Point) : Point :=
  ⟨(coords.map Point.lat).sum / coords.length,
   (coords.map Point.lng).sum / coords.length⟩

/-- Iterate `updateProgress` over a sequence of calls; each call supplies
`(deltaTimeSeconds, totalDistanceKm, speedMultiplier, baseSpeedKmh)`. -/
def runProgressCalls (cur : ℝ) : List (ℝ × ℝ × ℝ × ℝ) → ℝ
  | [] => cur
  | c :: rest => runProgressCalls (updateProgress cur c.1 c.2.1 c.2.2.1 c.2.2.2) rest

/-! ### Helper lemmas: haversine evaluation -/

lemma atan2_zero_one : atan2 0 1 = 0 := by
  simp [atan2, Real.arctan_zero]

lemma atan2_of_pos (y x : ℝ) (hx : 0 < x) : atan2 y x = Real.arctan (y / x) := by
  simp [atan2, hx]

lemma calculateDistance_self (p : Point) : calculateDistance p p = 0 := by
  simp [calculateDistance, toRad, atan2_zero_one]

lemma calculateDistance_comm (p1 p2 : Point) :
    calculateDistance p1 p2 = calculateDistance p2 p1 := by
  simp only [calculateDistance]
  have ha : Real.sin (toRad (p2.lat - p1.lat) / 2) * Real.sin (toRad (p2.lat - p1.lat) / 2) +
      Real.cos (toRad p1.lat) * Real.cos (toRad p2.lat) *
        Real.sin (toRad (p2.lng - p1.lng) / 2) * Real.sin (toRad (p2.lng - p1.lng) / 2) =
      Real.sin (toRad (p1.lat - p2.lat) / 2) * Real.sin (toRad (p1.lat - p2.lat) / 2) +
      Real.cos (toRad p2.lat) * Real.cos (toRad p1.lat) *
        Real.sin (toRad (p1.lng - p2.lng) / 2) * Real.sin (toRad (p1.lng - p2.lng) / 2) := by
    have h1 : toRad (p2.lat - p1.lat) / 2 = -(toRad (p1.lat - p2.lat) / 2) := by
      simp only [toRad]; ring
    have h2 : toRad (p2.lng - p1.lng) / 2 = -(toRad (p1.lng - p2.lng) / 2) := by
      simp only [toRad]; ring
    rw [h1, h2]; simp only [Real.sin_neg]
    ring
  rw [ha]

/-- Haversine distance between two equatorial points is exactly
`6371 · toRad |Δlng|` (for `|Δlng| < 180°`). -/
lemma calculateDistance_equator (l1 l2 : ℝ) (h : |l2 - l1| < 180) :
    calculateDistance ⟨0, l1⟩ ⟨0, l2⟩ = 6371 * toRad |l2 - l1| := by
  have hpi := Real.pi_pos
  have habs : |toRad (l2 - l1) / 2| = toRad |l2 - l1| / 2 := by
    simp only [toRad]
    rw [abs_div, abs_mul]
    rw [abs_of_pos (by positivity : (0:ℝ) < Real.pi / 180), abs_of_pos (by norm_num : (0:ℝ) < 2)]
  have hθ0 : (0:ℝ) ≤ |toRad (l2 - l1) / 2| := abs_nonneg _
  have hθlt : |toRad (l2 - l1) / 2| < Real.pi / 2 := by
    rw [habs]
    simp only [toRad]
    nlinarith [abs_nonneg (l2 - l1)]
  have hsin : 0 ≤ Real.sin |toRad (l2 - l1) / 2| :=
    Real.sin_nonneg_of_nonneg_of_le_pi hθ0 (by nlinarith)
  have hcos : 0 < Real.cos |toRad (l2 - l1) / 2| :=
    Real.cos_pos_of_mem_Ioo ⟨by nlinarith, hθlt⟩
  have hsq : Real.sin (toRad (l2 - l1) / 2) * Real.sin (toRad (l2 - l1) / 2)
      = Real.sin |toRad (l2 - l1) / 2| * Real.sin |toRad (l2 - l1) / 2| := by
    rcases abs_cases (toRad (l2 - l1) / 2) with ⟨he, _⟩ | ⟨he, _⟩
    · rw [he]
    · rw [he, Real.sin_neg]; ring
  have hone : 1 - Real.sin |toRad (l2 - l1) / 2| * Real.sin |toRad (l2 - l1) / 2|
      = Real.cos |toRad (l2 - l1) / 2| * Real.cos |toRad (l2 - l1) / 2| := by
    have := Real.sin_sq_add_cos_sq |toRad (l2 - l1) / 2|
    nlinarith
  simp only [calculateDistance]
  simp only [sub_self]
  rw [show toRad (0:ℝ) = 0 by simp [toRad]]
  norm_num [Real.sin_zero, Real.cos_zero]
  rw [hsq, hone, Real.sqrt_mul_self hsin, Real.sqrt_mul_self hcos.le]
  rw [atan2_of_pos _ _ hcos, ← Real.tan_eq_sin_div_cos,
    Real.arctan_tan (by nlinarith) hθlt]
  rw [habs]
  ring

/-! ### Helper lemmas: progress engine -/

lemma updateProgress_bounds (cur Δ tot m b : ℝ) (_h0 : 0 ≤ cur) (h1 : cur ≤ 1)
    (hΔ : 0 < Δ) (ht : 0 < tot) (hm : 0 < m) (hb : 0 < b) :
    cur ≤ updateProgress cur Δ tot m b ∧ updateProgress cur Δ tot m b ≤ 1 ∧
      updateProgress cur Δ tot m b ≤ cur + 0.01 := by
  unfold updateProgress
  have hpd : 0 < b * m / 3600 * Δ / tot := by positivity
  refine ⟨le_min (le_add_of_nonneg_right ?_) h1, min_le_right _ _,
    le_trans (min_le_left _ _) ?_⟩
  · exact le_min hpd.le (by norm_num)
  · exact add_le_add_left (min_le_right _ _) cur

lemma runProgressCalls_bounds (calls : List (ℝ × ℝ × ℝ × ℝ)) :
    ∀ cur : ℝ, 0 ≤ cur → cur ≤ 1 →
    (∀ c ∈ calls, 0 < c.1 ∧ 0 < c.2.1 ∧ 0 < c.2.2.1 ∧ 0 < c.2.2.2) →
    cur ≤ runProgressCalls cur calls ∧ runProgressCalls cur calls ≤ 1 := by
  induction calls with
  | nil => intro cur _h0 h1 _; exact ⟨le_refl _, h1⟩
  | cons c rest ih =>
    intro cur h0 h1 hc
    have hcHead := hc c (List.mem_cons_self c rest)
    have hstep := updateProgress_bounds cur c.1 c.2.1 c.2.2.1 c.2.2.2 h0 h1
      hcHead.1 hcHead.2.1 hcHead.2.2.1 hcHead.2.2.2
    have hrest := ih (updateProgress cur c.1 c.2.1 c.2.2.1 c.2.2.2)
      (le_trans h0 hstep.1) hstep.2.1
      (fun c' hm => hc c' (List.mem_cons_of_mem c hm))
    exact ⟨le_trans hstep.1 hrest.1, hrest.2⟩

/-! ### Helper lemmas: interpolation -/

lemma firstLE_spec (target : ℝ) :
    ∀ (l : List ℝ) (n : ℕ), firstLE target l = some n →
      n < l.length ∧ target ≤ l.getD n 0 ∧ ∀ m < n, l.getD m 0 < target := by
  intro l
  induction l with
  | nil => intro n hn; simp [firstLE] at hn
  | cons d rest ih =>
    intro n hn
    rw [firstLE] at hn
    by_cases hd : target ≤ d
    · rw [if_pos hd] at hn
      obtain rfl : 0 = n := by injection hn
      exact ⟨Nat.succ_pos _, hd, fun m hm => absurd hm (Nat.not_lt_zero m)⟩
    · rw [if_neg hd] at hn
      match hfl : firstLE target rest with
      | none => rw [hfl] at hn; simp at hn
      | some k =>
        rw [hfl] at hn
        obtain rfl : k + 1 = n := by injection hn
        obtain ⟨hk1, hk2, hk3⟩ := ih k hfl
        refine ⟨Nat.succ_lt_succ hk1, hk2, fun m hm => ?_⟩
        match m with
        | 0 => simpa using lt_of_not_le hd
        | m + 1 => exact hk3 m (Nat.lt_of_succ_lt_succ hm)

lemma firstLE_isSome (target : ℝ) :
    ∀ l : List ℝ, (∃ k, k < l.length ∧ target ≤ l.getD k 0) →
      ∃ n, firstLE target l = some n := by
  intro l
  induction l with
  | nil => rintro ⟨k, hk, -⟩; simp at hk
  | cons d rest ih =>
    rintro ⟨k, hk, hle⟩
    rw [firstLE]
    by_cases hd : target ≤ d
    · exact ⟨0, if_pos hd⟩
    · rw [if_neg hd]
      match k with
      | 0 => exact absurd hle hd
      | k + 1 =>
        obtain ⟨n, hn⟩ := ih ⟨k, Nat.lt_of_succ_lt_succ hk, hle⟩
        exact ⟨n + 1, by rw [hn]; rfl⟩

lemma getD_tail (l : List ℝ) (n : ℕ) (d : ℝ) :
    l.tail.getD n d = l.getD (n + 1) d := by
  cases l <;> rfl

lemma scanl_add_getD_zero (l : List ℝ) (b : ℝ) :
    (List.scanl (fun acc d => acc + d) b l).getD 0 0 = b := by
  cases l <;> rfl

lemma scanl_add_length (l : List ℝ) (b : ℝ) :
    (List.scanl (fun acc d => acc + d) b l).length = l.length + 1 :=
  List.length_scanl b l

lemma scanl_add_getD_last (l : List ℝ) :
    ∀ b : ℝ, (List.scanl (fun acc d => acc + d) b l).getD l.length 0 =
      List.foldl (fun acc d => acc + d) b l := by
  induction l with
  | nil => intro b; rfl
  | cons d rest ih => intro b; simpa using ih (b + d)

lemma segDists_length : ∀ points : List Point,
    (segDists points).length = points.length - 1 := by
  intro points
  match points with
  | [] => rfl
  | [_] => rfl
  | p :: q :: rest => simpa [segDists] using segDists_length (q :: rest)

/-! ### Helper lemmas: index searches and polygon distances -/

lemma find?_range'_eq_some (p : ℕ → Bool) : ∀ (c s k : ℕ),
    (List.range' s c).find? p = some k ↔
      (s ≤ k ∧ k < s + c ∧ p k = true ∧ ∀ m, s ≤ m → m < k → p m = false) := by
  intro c
  induction c with
  | zero =>
    intro s k
    simp only [List.range', List.find?]
    constructor
    · intro h; cases h
    · rintro ⟨h1, h2, -, -⟩; omega
  | succ c ih =>
    intro s k
    rw [List.range'_succ]
    by_cases hs : p s = true
    · rw [List.find?_cons_of_pos _ hs]
      constructor
      · intro h
        obtain rfl : s = k := by injection h
        exact ⟨le_refl s, by omega, hs, fun m h1 h2 => by omega⟩
      · rintro ⟨h1, h2, h3, h4⟩
        rcases eq_or_lt_of_le h1 with rfl | hlt
        · rfl
        · have := h4 s (le_refl s) hlt
          rw [hs] at this; cases this
    · have hs' : p s = false := by
        cases hps : p s
        · rfl
        · exact absurd hps hs
      rw [List.find?_cons_of_neg _ (by simp [hs'])]
      rw [ih (s + 1) k]
      constructor
      · rintro ⟨h1, h2, h3, h4⟩
        refine ⟨by omega, by omega, h3, fun m hm1 hm2 => ?_⟩
        rcases eq_or_lt_of_le hm1 with rfl | hlt
        · exact hs'
        · exact h4 m (by omega) hm2
      · rintro ⟨h1, h2, h3, h4⟩
        have hks : s ≠ k := by
          rintro rfl
          rw [h3] at hs'; cases hs'
        refine ⟨by omega, by omega, h3, fun m hm1 hm2 => h4 m (by omega) hm2⟩

lemma find?_range'_eq_none (p : ℕ → Bool) : ∀ (c s : ℕ),
    (List.range' s c).find? p = none ↔ ∀ m, s ≤ m → m < s + c → p m = false := by
  intro c
  induction c with
  | zero =>
    intro s
    simp only [List.range', List.find?]
    constructor
    · intro _ m h1 h2; omega
    · intro _; trivial
  | succ c ih =>
    intro s
    rw [List.range'_succ]
    by_cases hs : p s = true
    · rw [List.find?_cons_of_pos _ hs]
      constructor
      · intro h; cases h
      · intro h
        have := h s (le_refl s) (by omega)
        rw [hs] at this; cases this
    · have hs' : p s = false := by
        cases hps : p s
        · rfl
        · exact absurd hps hs
      rw [List.find?_cons_of_neg _ (by simp [hs'])]
      rw [ih (s + 1)]
      constructor
      · intro h m h1 h2
        rcases eq_or_lt_of_le h1 with rfl | hlt
        · exact hs'
        · exact h m (by omega) (by omega)
      · intro h m h1 h2
        exact h m (by omega) (by omega)

lemma firstIdx_eq_some (p : ℕ → Bool) (s n k : ℕ) (hsn : s ≤ n) :
    firstIdx p s n = some k ↔
      (s ≤ k ∧ k < n ∧ p k = true ∧ ∀ m, s ≤ m → m < k → p m = false) := by
  rw [firstIdx, find?_range'_eq_some]
  have h : s + (n - s) = n := by omega
  rw [h]

lemma firstIdx_eq_none (p : ℕ → Bool) (s n : ℕ) (hsn : s ≤ n) :
    firstIdx p s n = none ↔ ∀ m, s ≤ m → m < n → p m = false := by
  rw [firstIdx, find?_range'_eq_none]
  have h : s + (n - s) = n := by omega
  rw [h]

lemma ereal_coe_le_ten (x : ℝ) : ((x : ℝ) : EReal) ≤ (10 : EReal) ↔ x ≤ 10 := by
  rw [show (10 : EReal) = ((10:ℝ) : EReal) by norm_cast]
  exact EReal.coe_le_coe_iff

lemma ereal_coe_le_three (x : ℝ) : ((x : ℝ) : EReal) ≤ (3 : EReal) ↔ x ≤ 3 := by
  rw [show (3 : EReal) = ((3:ℝ) : EReal) by norm_cast]
  exact EReal.coe_le_coe_iff

lemma ereal_fifteen_lt_coe (x : ℝ) : (15 : EReal) < ((x : ℝ) : EReal) ↔ 15 < x := by
  rw [show (15 : EReal) = ((15:ℝ) : EReal) by norm_cast]
  exact EReal.coe_lt_coe_iff

lemma distanceToSegment_degenerate (q z : Point) :
    distanceToSegment q z z = calculateDistance q z := by
  simp only [distanceToSegment]
  rw [calculateDistance_self]
  rw [if_pos (by norm_num : (0:ℝ) < 0.001)]

/-- Distance to the degenerate triangle `[z,z,z]` is the haversine
distance to `z` itself. -/
lemma distanceToPolygon_point_triple (q z : Point) :
    distanceToPolygon q [z, z, z] = ((calculateDistance q z : ℝ) : EReal) := by
  rw [distanceToPolygon, if_neg (by simp)]
  have he : polygonEdges [z, z, z] = [(z, z), (z, z), (z, z)] := by
    simp [polygonEdges, List.range_succ]
  rw [he]
  simp only [List.map]
  rw [distanceToSegment_degenerate]
  show min (min (min ⊤ _) _) _ = _
  rw [min_eq_right le_top, min_self, min_self]

/-- Haversine distance from an equatorial point at longitude `x ∈ [0,180)`
to the origin. -/
lemma calculateDistance_equator_zero (x : ℝ) (h0 : 0 ≤ x) (h1 : x < 180) :
    calculateDistance ⟨0, x⟩ ⟨0, 0⟩ = 6371 * (x * (Real.pi / 180)) := by
  have h := calculateDistance_equator x 0 (by rw [zero_sub, abs_neg, abs_of_nonneg h0]; exact h1)
  rw [zero_sub, abs_neg, abs_of_nonneg h0, toRad] at h
  exact h

/-! ### Claim theorems -/

/-- C9: the haversine `calculateDistance` is symmetric, and the distance
from any point to itself is zero. -/
theorem calculateDistance_symm_and_self (a b : Point) :
    calculateDistance a b = calculateDistance b a ∧ calculateDistance a a = 0 :=
  ⟨calculateDistance_comm a b, calculateDistance_self a⟩

/-- C5: for `currentProgress ∈ [0,1]` and positive `deltaTimeSeconds`,
`totalDistanceKm`, `speedMultiplier`, `baseSpeedKmh`, `updateProgress`
returns a value in `[currentProgress, 1]` that exceeds `currentProgress`
by at most `0.01`; consequently over any sequence of such calls the
progress never decreases and never exceeds 1. -/
theorem updateProgress_monotone_capped :
    (∀ cur Δ tot m b : ℝ, 0 ≤ cur → cur ≤ 1 → 0 < Δ → 0 < tot → 0 < m → 0 < b →
      cur ≤ updateProgress cur Δ tot m b ∧ updateProgress cur Δ tot m b ≤ 1 ∧
        updateProgress cur Δ tot m b ≤ cur + 0.01) ∧
    (∀ (cur : ℝ) (calls : List (ℝ × ℝ × ℝ × ℝ)), 0 ≤ cur → cur ≤ 1 →
      (∀ c ∈ calls, 0 < c.1 ∧ 0 < c.2.1 ∧ 0 < c.2.2.1 ∧ 0 < c.2.2.2) →
      cur ≤ runProgressCalls cur calls ∧ runProgressCalls cur calls ≤ 1) :=
  ⟨fun cur Δ tot m b h0 h1 hΔ ht hm hb => updateProgress_bounds cur Δ tot m b h0 h1 hΔ ht hm hb,
   fun cur calls h0 h1 hc => runProgressCalls_bounds calls cur h0 h1 hc⟩

/-- Witness for C5: the spec's Mumbai→Delhi scenario shape —
`baseSpeedKmh = 60`, `speedMultiplier = 50`, `deltaSeconds = 1` on a 10 km
route advances progress by at most `0.01`. -/
theorem updateProgress_monotone_capped_witness :
    (0:ℝ) ≤ updateProgress 0 1 10 50 60 ∧ updateProgress 0 1 10 50 60 ≤ 1 ∧
      updateProgress 0 1 10 50 60 ≤ 0 + 0.01 :=
  updateProgress_monotone_capped.1 0 1 10 50 60 (by norm_num) (by norm_num)
    (by norm_num) (by norm_num) (by norm_num) (by norm_num)

/-- C3 counterexample: `calculateETA` and `updateProgress` contain no
speed validation at all — at a negative base speed they return ordinary
numeric values (a negative ETA of −100 minutes, and a *decreased*
progress) instead of failing with an `InvalidSpeedError` (an error that
appears nowhere in the source). -/
theorem speed_validation_counterexample :
    calculateETA 100 (-60) 1 = -100 ∧
      updateProgress (1/2) 1 100 1 (-60) = 1/2 - 1/6000 := by
  constructor
  · unfold calculateETA; norm_num
  · simp only [updateProgress]
    norm_num [min_def]

/-- C3 amended: `calculateETA` and `updateProgress` perform no positivity
validation of `baseSpeedKmh`/`speedMultiplier` and raise no error; they
are total, and a negative base speed with positive multiplier yields a
negative ETA and a strictly decreased progress. -/
theorem speed_no_validation :
    (∀ r b s : ℝ, 0 < r → b < 0 → 0 < s → calculateETA r b s < 0) ∧
    (∀ cur Δ tot m b : ℝ, cur ≤ 1 → 0 < Δ → 0 < tot → 0 < m → b < 0 →
      updateProgress cur Δ tot m b < cur) := by
  constructor
  · intro r b s hr hb hs
    unfold calculateETA
    have hbs : b * s < 0 := mul_neg_of_neg_of_pos hb hs
    have : r / (b * s) < 0 := div_neg_of_pos_of_neg hr hbs
    nlinarith
  · intro cur Δ tot m b h1 hΔ ht hm hb
    unfold updateProgress
    have hpd : b * m / 3600 * Δ / tot < 0 := by
      apply div_neg_of_neg_of_pos _ ht
      have : b * m < 0 := mul_neg_of_neg_of_pos hb hm
      nlinarith
    have hcap : min (b * m / 3600 * Δ / tot) 0.01 ≤ b * m / 3600 * Δ / tot :=
      min_le_left _ _
    have h2 : min (cur + min (b * m / 3600 * Δ / tot) 0.01) 1
        ≤ cur + min (b * m / 3600 * Δ / tot) 0.01 := min_le_left _ _
    linarith

/-- Witness for the C3 amended theorem at a concrete configuration. -/
theorem speed_no_validation_witness :
    calculateETA 100 (-60) 1 < 0 ∧ updateProgress (1/2) 1 100 1 (-60) < 1/2 :=
  ⟨speed_no_validation.1 100 (-60) 1 (by norm_num) (by norm_num) (by norm_num),
   speed_no_validation.2 (1/2) 1 100 1 (-60) (by norm_num) (by norm_num)
     (by norm_num) (by norm_num) (by norm_num)⟩

/-- C6: for every non-empty route, `interpolatePosition` returns the first
point whenever `progress ≤ 0` and the last point whenever `progress ≥ 1`. -/
theorem interpolatePosition_endpoints (points : List Point) (h : points ≠ []) (p : ℝ) :
    (p ≤ 0 → interpolatePosition points p = some (points.head h)) ∧
    (1 ≤ p → interpolatePosition points p = some (points.getLast h)) := by
  match points with
  | [] => exact absurd rfl h
  | a :: as =>
    constructor
    · intro hp
      simp only [interpolatePosition]
      rw [if_pos hp]
      rfl
    · intro hp
      simp only [interpolatePosition]
      rw [if_neg (by linarith), if_pos hp]

/-- Witness for C6 on the concrete route `[(1,2), (3,4)]`. -/
theorem interpolatePosition_endpoints_witness :
    interpolatePosition [⟨1,2⟩, ⟨3,4⟩] 0 = some ⟨1,2⟩ ∧
      interpolatePosition [⟨1,2⟩, ⟨3,4⟩] 1 = some ⟨3,4⟩ := by
  have h1 := (interpolatePosition_endpoints [⟨1,2⟩, ⟨3,4⟩]
    (List.cons_ne_nil _ _) 0).1 le_rfl
  have h2 := (interpolatePosition_endpoints [⟨1,2⟩, ⟨3,4⟩]
    (List.cons_ne_nil _ _) 1).2 le_rfl
  refine ⟨h1.trans ?_, h2.trans ?_⟩ <;> simp [List.getLast]

/-- C8: `checkForStoppage` returns the first stoppage in list order with
`triggered = false` and `|progress − position| < 0.005` (in particular
never one with `triggered = true`), and `none` exactly when no such
stoppage exists; as a pure function, repeated calls with the same
arguments return the same result. -/
theorem checkForStoppage_first (p : ℝ) (ss : List Stoppage) :
    (∀ st, checkForStoppage p ss = some st →
      st.triggered = false ∧ |p - st.position| < 0.005 ∧
      ∃ i, ss.get? i = some st ∧ ∀ j st', j < i → ss.get? j = some st' →
        ¬(st'.triggered = false ∧ |p - st'.position| < 0.005)) ∧
    (checkForStoppage p ss = none ↔
      ∀ st ∈ ss, ¬(st.triggered = false ∧ |p - st.position| < 0.005)) := by
  induction ss with
  | nil => exact ⟨fun st hst => by simp [checkForStoppage] at hst, by simp [checkForStoppage]⟩
  | cons s rest ih =>
    by_cases hc : s.triggered = false ∧ |p - s.position| < 0.005
    · constructor
      · intro st hst
        rw [checkForStoppage, if_pos hc] at hst
        obtain rfl : s = st := by injection hst
        exact ⟨hc.1, hc.2, 0, rfl, fun j st' hj _ => absurd hj (Nat.not_lt_zero j)⟩
      · rw [checkForStoppage, if_pos hc]
        constructor
        · intro h; exact absurd h (by simp)
        · intro hall; exact absurd hc (hall s (List.mem_cons_self s rest))
    · constructor
      · intro st hst
        rw [checkForStoppage, if_neg hc] at hst
        obtain ⟨h1, h2, i, hi, hfirst⟩ := ih.1 st hst
        refine ⟨h1, h2, i + 1, hi, fun j st' hj hget => ?_⟩
        match j with
        | 0 =>
          obtain rfl : s = st' := by injection hget
          exact hc
        | j + 1 =>
          exact hfirst j st' (Nat.lt_of_succ_lt_succ hj) hget
      · rw [checkForStoppage, if_neg hc]
        rw [ih.2]
        constructor
        · intro hall st hst
          rcases List.mem_cons.mp hst with rfl | hmem
          · exact hc
          · exact hall st hmem
        · intro hall st hmem
          exact hall st (List.mem_cons_of_mem s hmem)

/-- Witness for C8: the spec's scenario
`checkForStoppage(0.5, [{position:0.5, duration:15, triggered:false}])`
returns that stoppage, which is untriggered and first in order. -/
theorem checkForStoppage_first_witness :
    (⟨0.5, 15, false⟩ : Stoppage).triggered = false ∧
      |(0.5:ℝ) - (⟨0.5, 15, false⟩ : Stoppage).position| < 0.005 ∧
      ∃ i, [(⟨0.5, 15, false⟩ : Stoppage)].get? i = some ⟨0.5, 15, false⟩ ∧
        ∀ j st', j < i → [(⟨0.5, 15, false⟩ : Stoppage)].get? j = some st' →
          ¬(st'.triggered = false ∧ |(0.5:ℝ) - st'.position| < 0.005) :=
  (checkForStoppage_first 0.5 [⟨0.5, 15, false⟩]).1 ⟨0.5, 15, false⟩
    (by rw [checkForStoppage, if_pos (by norm_num)])

/-- C10 counterexample: on the degenerate two-point route
`[(0,0), (0,0)]` with `progress = 1/2` (which satisfies the claim's
hypotheses: at least 2 points, `0 < p < 1`), the taken branch of
`interpolatePosition` is segment index 1 whose cumulative-distance span is
zero — the `segmentProgress` division is a division by zero, refuting the
claim that the bracketing segment always has positive span. -/
theorem interpolatePosition_zero_span_counterexample :
    2 ≤ ([⟨0,0⟩, ⟨0,0⟩] : List Point).length ∧ (0:ℝ) < 1/2 ∧ (1/2:ℝ) < 1 ∧
    findSegmentIdx (cumDists [⟨0,0⟩, ⟨0,0⟩])
      ((1/2) * totalSimpleDistance [⟨0,0⟩, ⟨0,0⟩]) = some 1 ∧
    (cumDists [⟨0,0⟩, ⟨0,0⟩]).getD 1 0 - (cumDists [⟨0,0⟩, ⟨0,0⟩]).getD 0 0 = 0 := by
  have hsd : calculateSimpleDistance (⟨0,0⟩ : Point) ⟨0,0⟩ = 0 := by
    simp [calculateSimpleDistance]
  have hcum : cumDists [(⟨0,0⟩ : Point), ⟨0,0⟩]
      = [0, 0 + calculateSimpleDistance ⟨0,0⟩ ⟨0,0⟩] := rfl
  have htot : totalSimpleDistance [(⟨0,0⟩ : Point), ⟨0,0⟩]
      = 0 + calculateSimpleDistance ⟨0,0⟩ ⟨0,0⟩ := rfl
  refine ⟨by norm_num, by norm_num, by norm_num, ?_, ?_⟩
  · rw [hcum, htot, hsd, findSegmentIdx]
    norm_num [firstLE]
  · rw [hcum, hsd]
    norm_num

/-- C10 amended: whenever the route's total (planar) length is positive —
which the claim's hypotheses do not guarantee — `interpolatePosition` at
`0 < progress < 1` returns a convex combination
`points[n] + t·(points[n+1] − points[n])` of a consecutive pair, with
`t ∈ [0,1]`, and the taken bracketing segment has a strictly positive
cumulative-distance span (so the `segmentProgress` division is well
defined). -/
theorem interpolatePosition_on_polyline (points : List Point) (p : ℝ)
    (h2 : 2 ≤ points.length) (hp0 : 0 < p) (hp1 : p < 1)
    (htot : 0 < totalSimpleDistance points) :
    ∃ (n : ℕ) (t : ℝ), n + 1 < points.length ∧ 0 ≤ t ∧ t ≤ 1 ∧
      (cumDists points).getD n 0 < (cumDists points).getD (n + 1) 0 ∧
      interpolatePosition points p =
        some ⟨(points.getD n default).lat +
                ((points.getD (n + 1) default).lat - (points.getD n default).lat) * t,
              (points.getD n default).lng +
                ((points.getD (n + 1) default).lng - (points.getD n default).lng) * t⟩ := by
  obtain ⟨a, ps, rfl⟩ : ∃ a ps, points = a :: ps := by
    match points with
    | [] => simp at h2
    | a :: ps => exact ⟨a, ps, rfl⟩
  have hsegLen : (segDists (a :: ps)).length = ps.length := by
    simpa using segDists_length (a :: ps)
  have hlen : (cumDists (a :: ps)).length = ps.length + 1 := by
    rw [cumDists, scanl_add_length, hsegLen]
  have hps : 1 ≤ ps.length := by simpa using h2
  have htail_len : (cumDists (a :: ps)).tail.length = ps.length := by
    rw [List.length_tail, hlen]; omega
  have hlast : (cumDists (a :: ps)).getD ps.length 0 = totalSimpleDistance (a :: ps) := by
    rw [cumDists, ← hsegLen, scanl_add_getD_last, totalSimpleDistance]
  have htarget_pos : 0 < p * totalSimpleDistance (a :: ps) := mul_pos hp0 htot
  have htarget_lt : p * totalSimpleDistance (a :: ps) < totalSimpleDistance (a :: ps) := by
    nlinarith
  have hex : ∃ k, k < (cumDists (a :: ps)).tail.length ∧
      p * totalSimpleDistance (a :: ps) ≤ (cumDists (a :: ps)).tail.getD k 0 := by
    refine ⟨ps.length - 1, ?_, ?_⟩
    · rw [htail_len]; omega
    · rw [getD_tail]
      have he : ps.length - 1 + 1 = ps.length := by omega
      rw [he, hlast]
      exact htarget_lt.le
  obtain ⟨n, hn⟩ := firstLE_isSome _ _ hex
  obtain ⟨hn1, hn2, hn3⟩ := firstLE_spec _ _ n hn
  have hnlt : n < ps.length := by rwa [htail_len] at hn1
  have hfind : findSegmentIdx (cumDists (a :: ps)) (p * totalSimpleDistance (a :: ps))
      = some (n + 1) := by
    rw [findSegmentIdx, hn]; rfl
  have hstart_lt : (cumDists (a :: ps)).getD n 0 < p * totalSimpleDistance (a :: ps) := by
    match n with
    | 0 => rw [cumDists, scanl_add_getD_zero]; exact htarget_pos
    | m + 1 =>
      have hm := hn3 m (Nat.lt_succ_self m)
      rwa [getD_tail] at hm
  have hend_ge : p * totalSimpleDistance (a :: ps) ≤ (cumDists (a :: ps)).getD (n + 1) 0 := by
    rw [← getD_tail]; exact hn2
  have hspan : 0 < (cumDists (a :: ps)).getD (n + 1) 0 - (cumDists (a :: ps)).getD n 0 := by
    linarith
  refine ⟨n, (p * totalSimpleDistance (a :: ps) - (cumDists (a :: ps)).getD n 0) /
      ((cumDists (a :: ps)).getD (n + 1) 0 - (cumDists (a :: ps)).getD n 0),
    by simpa using Nat.succ_lt_succ hnlt,
    div_nonneg (by linarith) hspan.le,
    (div_le_one hspan).mpr (by linarith),
    by linarith, ?_⟩
  simp only [interpolatePosition]
  rw [if_neg (by linarith : ¬ p ≤ 0), if_neg (by linarith : ¬ (1:ℝ) ≤ p)]
  simp only [hfind, Nat.add_sub_cancel]

/-- Witness for the C10 amended theorem on the unit-length equatorial
route `[(0,0), (0,1)]` at `progress = 1/2`. -/
theorem interpolatePosition_on_polyline_witness :
    ∃ (n : ℕ) (t : ℝ), n + 1 < ([⟨0,0⟩, ⟨0,1⟩] : List Point).length ∧ 0 ≤ t ∧ t ≤ 1 ∧
      (cumDists [⟨0,0⟩, ⟨0,1⟩]).getD n 0 < (cumDists [⟨0,0⟩, ⟨0,1⟩]).getD (n + 1) 0 ∧
      interpolatePosition [⟨0,0⟩, ⟨0,1⟩] (1/2) =
        some ⟨(([⟨0,0⟩, ⟨0,1⟩] : List Point).getD n default).lat +
                ((([⟨0,0⟩, ⟨0,1⟩] : List Point).getD (n + 1) default).lat -
                  (([⟨0,0⟩, ⟨0,1⟩] : List Point).getD n default).lat) * t,
              (([⟨0,0⟩, ⟨0,1⟩] : List Point).getD n default).lng +
                ((([⟨0,0⟩, ⟨0,1⟩] : List Point).getD (n + 1) default).lng -
                  (([⟨0,0⟩, ⟨0,1⟩] : List Point).getD n default).lng) * t⟩ :=
  interpolatePosition_on_polyline [⟨0,0⟩, ⟨0,1⟩] (1/2) (by norm_num) (by norm_num)
    (by norm_num)
    (by
      have h : totalSimpleDistance [(⟨0,0⟩ : Point), ⟨0,1⟩]
          = 0 + calculateSimpleDistance ⟨0,0⟩ ⟨0,1⟩ := rfl
      have hc : calculateSimpleDistance (⟨0,0⟩ : Point) ⟨0,1⟩ = 1 := by
        simp [calculateSimpleDistance]
      rw [h, hc]; norm_num)

/-- Distance from an equatorial route point to the degenerate zone
`[(0,0),(0,0),(0,0)]`. -/
lemma dp_equator_triple (x : ℝ) (h0 : 0 ≤ x) (h1 : x < 180) :
    distanceToPolygon ⟨0, x⟩ [⟨0,0⟩, ⟨0,0⟩, ⟨0,0⟩]
      = ((6371 * (x * (Real.pi / 180)) : ℝ) : EReal) := by
  rw [distanceToPolygon_point_triple, calculateDistance_equator_zero x h0 h1]

/-- C4 amended: the detour builder's entry index is the *first* (not last)
point more than 15 km from the zone within the window of up to 20 route
points preceding the first approach point (the first point, searching
forward from `startIndex`, within 10 km of the zone), and the exit index
is the first point *at or after the approach point* (not after the entry)
that is more than 15 km from the zone. -/
theorem findZoneSegment_entry_exit (route zone : List Point) (s i0 j0 i1 : ℕ)
    (hsi0 : s ≤ i0) (hi0n : i0 < route.length)
    (happ : distanceToPolygon (route.getD i0 default) zone ≤ (10 : EReal))
    (hbefore : ∀ m, s ≤ m → m < i0 →
      ¬(distanceToPolygon (route.getD m default) zone ≤ (10 : EReal)))
    (hj0a : max s (i0 - 20) ≤ j0) (hj0b : j0 < i0)
    (hj0 : (15 : EReal) < distanceToPolygon (route.getD j0 default) zone)
    (hj0first : ∀ m, max s (i0 - 20) ≤ m → m < j0 →
      ¬((15 : EReal) < distanceToPolygon (route.getD m default) zone))
    (hi1a : i0 ≤ i1) (hi1n : i1 < route.length)
    (hi1 : (15 : EReal) < distanceToPolygon (route.getD i1 default) zone)
    (hi1first : ∀ m, i0 ≤ m → m < i1 →
      ¬((15 : EReal) < distanceToPolygon (route.getD m default) zone)) :
    findZoneSegment route zone s = some (j0, i1) := by
  have h1 : firstIdx
      (fun i => decide (distanceToPolygon (route.getD i default) zone ≤ (10:EReal)))
      s route.length = some i0 := by
    rw [firstIdx_eq_some _ _ _ _ (by omega)]
    exact ⟨hsi0, hi0n, decide_eq_true happ,
      fun m hm1 hm2 => decide_eq_false (hbefore m hm1 hm2)⟩
  have h2 : firstIdx
      (fun j => decide ((15:EReal) < distanceToPolygon (route.getD j default) zone))
      (max s (i0 - 20)) i0 = some j0 := by
    rw [firstIdx_eq_some _ _ _ _ (by omega)]
    exact ⟨hj0a, hj0b, decide_eq_true hj0,
      fun m hm1 hm2 => decide_eq_false (hj0first m hm1 hm2)⟩
  have h3 : firstIdx
      (fun i => decide ((15:EReal) < distanceToPolygon (route.getD i default) zone))
      i0 route.length = some i1 := by
    rw [firstIdx_eq_some _ _ _ _ (by omega)]
    exact ⟨hi1a, hi1n, decide_eq_true hi1,
      fun m hm1 hm2 => decide_eq_false (hi1first m hm1 hm2)⟩
  have h4 : firstIdx
      (fun j => decide ((15:EReal) < distanceToPolygon (route.getD j default) zone))
      i1 (min route.length (i1 + 20)) = some i1 := by
    rw [firstIdx_eq_some _ _ _ _ (by omega)]
    exact ⟨le_refl _, by omega, decide_eq_true hi1, fun m hm1 hm2 => by omega⟩
  simp only [findZoneSegment, h1, h2, h3, h4]

/-- C4 counterexample: on the equatorial route
`[(0,0.2), (0,0.18), (0,0.05), (0,0.2)]` (distances to the zone ≈ 22.2,
20.0, 5.6, 22.2 km) with the degenerate zone at the origin, the builder
returns entry 0 and exit 3.  Yet index 1 is also more than 15 km away and
lies strictly between 0 and the 10 km approach at index 2 — so the chosen
entry is *not* the last safe point before the approach — and index 1 is
already a point after entry 0 that is more than 15 km away — so the chosen
exit 3 is *not* the first such point after the entry. -/
theorem findZoneSegment_counterexample :
    findZoneSegment [⟨0,0.2⟩, ⟨0,0.18⟩, ⟨0,0.05⟩, ⟨0,0.2⟩]
        [⟨0,0⟩, ⟨0,0⟩, ⟨0,0⟩] 0 = some (0, 3) ∧
    (15 : EReal) < distanceToPolygon (⟨0,0.18⟩ : Point) [⟨0,0⟩, ⟨0,0⟩, ⟨0,0⟩] ∧
    distanceToPolygon (⟨0,0.05⟩ : Point) [⟨0,0⟩, ⟨0,0⟩, ⟨0,0⟩] ≤ (10 : EReal) ∧
    ¬(distanceToPolygon (⟨0,0.2⟩ : Point) [⟨0,0⟩, ⟨0,0⟩, ⟨0,0⟩] ≤ (10 : EReal)) ∧
    ¬(distanceToPolygon (⟨0,0.18⟩ : Point) [⟨0,0⟩, ⟨0,0⟩, ⟨0,0⟩] ≤ (10 : EReal)) := by
  have hp2 : distanceToPolygon (⟨0,0.2⟩ : Point) [⟨0,0⟩, ⟨0,0⟩, ⟨0,0⟩]
      = ((6371 * ((0.2:ℝ) * (Real.pi / 180)) : ℝ) : EReal) :=
    dp_equator_triple 0.2 (by norm_num) (by norm_num)
  have hp18 : distanceToPolygon (⟨0,0.18⟩ : Point) [⟨0,0⟩, ⟨0,0⟩, ⟨0,0⟩]
      = ((6371 * ((0.18:ℝ) * (Real.pi / 180)) : ℝ) : EReal) :=
    dp_equator_triple 0.18 (by norm_num) (by norm_num)
  have hp05 : distanceToPolygon (⟨0,0.05⟩ : Point) [⟨0,0⟩, ⟨0,0⟩, ⟨0,0⟩]
      = ((6371 * ((0.05:ℝ) * (Real.pi / 180)) : ℝ) : EReal) :=
    dp_equator_triple 0.05 (by norm_num) (by norm_num)
  have h2gt15 : (15 : EReal) < distanceToPolygon (⟨0,0.2⟩ : Point) [⟨0,0⟩, ⟨0,0⟩, ⟨0,0⟩] := by
    rw [hp2, ereal_fifteen_lt_coe]
    nlinarith [Real.pi_gt_d6]
  have h18gt15 : (15 : EReal) < distanceToPolygon (⟨0,0.18⟩ : Point) [⟨0,0⟩, ⟨0,0⟩, ⟨0,0⟩] := by
    rw [hp18, ereal_fifteen_lt_coe]
    nlinarith [Real.pi_gt_d6]
  have h2not10 : ¬(distanceToPolygon (⟨0,0.2⟩ : Point) [⟨0,0⟩, ⟨0,0⟩, ⟨0,0⟩] ≤ (10 : EReal)) := by
    rw [hp2, ereal_coe_le_ten, not_le]
    nlinarith [Real.pi_gt_d6]
  have h18not10 : ¬(distanceToPolygon (⟨0,0.18⟩ : Point) [⟨0,0⟩, ⟨0,0⟩, ⟨0,0⟩] ≤ (10 : EReal)) := by
    rw [hp18, ereal_coe_le_ten, not_le]
    nlinarith [Real.pi_gt_d6]
  have h05le10 : distanceToPolygon (⟨0,0.05⟩ : Point) [⟨0,0⟩, ⟨0,0⟩, ⟨0,0⟩] ≤ (10 : EReal) := by
    rw [hp05, ereal_coe_le_ten]
    nlinarith [Real.pi_lt_d2]
  have h05not15 : ¬((15 : EReal) < distanceToPolygon (⟨0,0.05⟩ : Point) [⟨0,0⟩, ⟨0,0⟩, ⟨0,0⟩]) := by
    rw [hp05, ereal_fifteen_lt_coe, not_lt]
    nlinarith [Real.pi_lt_d2]
  have hg0 : ([⟨0,0.2⟩, ⟨0,0.18⟩, ⟨0,0.05⟩, ⟨0,0.2⟩] : List Point).getD 0 default
      = ⟨0,0.2⟩ := rfl
  have hg1 : ([⟨0,0.2⟩, ⟨0,0.18⟩, ⟨0,0.05⟩, ⟨0,0.2⟩] : List Point).getD 1 default
      = ⟨0,0.18⟩ := rfl
  have hg2 : ([⟨0,0.2⟩, ⟨0,0.18⟩, ⟨0,0.05⟩, ⟨0,0.2⟩] : List Point).getD 2 default
      = ⟨0,0.05⟩ := rfl
  have hg3 : ([⟨0,0.2⟩, ⟨0,0.18⟩, ⟨0,0.05⟩, ⟨0,0.2⟩] : List Point).getD 3 default
      = ⟨0,0.2⟩ := rfl
  refine ⟨?_, h18gt15, h05le10, h2not10, h18not10⟩
  refine findZoneSegment_entry_exit _ _ 0 2 0 3 (by omega) (by simp) ?_ ?_
    (by simp) (by omega) ?_ ?_ (by omega) (by simp) ?_ ?_
  · rw [hg2]; exact h05le10
  · intro m hm1 hm2
    interval_cases m
    · rw [hg0]; exact h2not10
    · rw [hg1]; exact h18not10
  · rw [hg0]; exact h2gt15
  · intro m hm1 hm2
    simp at hm1
    omega
  · rw [hg3]; exact h2gt15
  · intro m hm1 hm2
    interval_cases m
    rw [hg2]; exact h05not15

/-- Witness for the C4 amended theorem on the equatorial route
`[(0,0.2), (0,0.05), (0,0.2)]`: approach at index 1, entry window search
picks index 0, exit search picks index 2. -/
theorem findZoneSegment_entry_exit_witness :
    findZoneSegment [⟨0,0.2⟩, ⟨0,0.05⟩, ⟨0,0.2⟩]
      [⟨0,0⟩, ⟨0,0⟩, ⟨0,0⟩] 0 = some (0, 2) := by
  have hp2 : distanceToPolygon (⟨0,0.2⟩ : Point) [⟨0,0⟩, ⟨0,0⟩, ⟨0,0⟩]
      = ((6371 * ((0.2:ℝ) * (Real.pi / 180)) : ℝ) : EReal) :=
    dp_equator_triple 0.2 (by norm_num) (by norm_num)
  have hp05 : distanceToPolygon (⟨0,0.05⟩ : Point) [⟨0,0⟩, ⟨0,0⟩, ⟨0,0⟩]
      = ((6371 * ((0.05:ℝ) * (Real.pi / 180)) : ℝ) : EReal) :=
    dp_equator_triple 0.05 (by norm_num) (by norm_num)
  have hg0 : ([⟨0,0.2⟩, ⟨0,0.05⟩, ⟨0,0.2⟩] : List Point).getD 0 default = ⟨0,0.2⟩ := rfl
  have hg1 : ([⟨0,0.2⟩, ⟨0,0.05⟩, ⟨0,0.2⟩] : List Point).getD 1 default = ⟨0,0.05⟩ := rfl
  have hg2 : ([⟨0,0.2⟩, ⟨0,0.05⟩, ⟨0,0.2⟩] : List Point).getD 2 default = ⟨0,0.2⟩ := rfl
  refine findZoneSegment_entry_exit _ _ 0 1 0 2 (by omega) (by simp) ?_ ?_
    (by simp) (by omega) ?_ ?_ (by omega) (by simp) ?_ ?_
  · rw [hg1, hp05, ereal_coe_le_ten]
    nlinarith [Real.pi_lt_d2]
  · intro m hm1 hm2
    interval_cases m
    rw [hg0, hp2, ereal_coe_le_ten, not_le]
    nlinarith [Real.pi_gt_d6]
  · rw [hg0, hp2, ereal_fifteen_lt_coe]
    nlinarith [Real.pi_gt_d6]
  · intro m hm1 hm2
    simp at hm1
    omega
  · rw [hg2, hp2, ereal_fifteen_lt_coe]
    nlinarith [Real.pi_gt_d6]
  · intro m hm1 hm2
    interval_cases m
    rw [hg1, hp05, ereal_fifteen_lt_coe, not_lt]
    nlinarith [Real.pi_lt_d2]

lemma scanPointsValid_iff (coords : List Point) :
    ∀ route : List Point, scanPointsValid coords route = true ↔
      ∀ p ∈ route, ¬(distanceToPolygon p coords ≤ (3 : EReal)) := by
  intro route
  induction route with
  | nil => simp [scanPointsValid]
  | cons p rest ih =>
    rw [scanPointsValid]
    by_cases hp : distanceToPolygon p coords ≤ (3 : EReal)
    · rw [if_pos hp]
      constructor
      · intro h; cases h
      · intro h; exact absurd hp (h p (List.mem_cons_self p rest))
    · rw [if_neg hp, ih]
      constructor
      · intro h q hq
        rcases List.mem_cons.mp hq with rfl | hmem
        · exact hp
        · exact h q hmem
      · intro h q hq
        exact h q (List.mem_cons_of_mem p hq)

lemma validateRoute_iff (route : List Point) :
    ∀ zones : List Zone, validateRoute route zones = true ↔
      ∀ z ∈ zones, 3 ≤ z.coordinates.length →
        ∀ p ∈ route, ¬(distanceToPolygon p z.coordinates ≤ (3 : EReal)) := by
  intro zones
  induction zones with
  | nil => simp [validateRoute]
  | cons z zs ih =>
    rw [validateRoute]
    by_cases hz : 3 ≤ z.coordinates.length
    · rw [if_pos hz]
      by_cases hs : scanPointsValid z.coordinates route = true
      · rw [if_pos hs, ih]
        constructor
        · intro h w hw hlen
          rcases List.mem_cons.mp hw with rfl | hmem
          · exact fun p hp => ((scanPointsValid_iff w.coordinates route).mp hs) p hp
          · exact h w hmem hlen
        · intro h w hw
          exact h w (List.mem_cons_of_mem z hw)
      · have hs' : scanPointsValid z.coordinates route = false := by
          cases hc : scanPointsValid z.coordinates route
          · rfl
          · exact absurd hc hs
        rw [hs', if_neg (by simp)]
        constructor
        · intro h; cases h
        · intro h
          exact absurd ((scanPointsValid_iff z.coordinates route).mpr
            (h z (List.mem_cons_self z zs) hz)) hs
    · rw [if_neg hz, ih]
      constructor
      · intro h w hw hlen
        rcases List.mem_cons.mp hw with rfl | hmem
        · exact absurd hlen hz
        · exact h w hmem hlen
      · intro h w hw
        exact h w (List.mem_cons_of_mem z hw)

lemma pickBestAux_valid (zones : List Zone) :
    ∀ (cands : List (List Point × ℝ)) (best : Option (List Point)) (bd : EReal),
      (∀ r, best = some r → validateRoute r zones = true) →
      ∀ r, pickBestAux zones best bd cands = some r → validateRoute r zones = true := by
  intro cands
  induction cands with
  | nil =>
    intro best bd hbest r hr
    exact hbest r hr
  | cons c rest ih =>
    intro best bd hbest r hr
    rw [pickBestAux] at hr
    by_cases hc : validateRoute c.1 zones = true ∧ ((c.2 : ℝ) : EReal) < bd
    · rw [if_pos hc] at hr
      refine ih (some c.1) (c.2 : ℝ) (fun r' hr' => ?_) r hr
      rw [← Option.some.inj hr']
      exact hc.1
    · rw [if_neg hc] at hr
      exact ih best bd hbest r hr

/-- C1: whenever the detour builder's 3 km validation succeeds on a route
(in particular on the final assembled route it returns), every point of
that route is more than 3 km from every avoided zone's polygon boundary
(every zone with at least 3 coordinates — for fewer, `distanceToPolygon`
is `Infinity` and the clearance holds trivially); and a candidate route is
only ever kept as `bestRoute` after passing that same validation. -/
theorem detour_clearance_3km :
    (∀ (route : List Point) (zones : List Zone), validateRoute route zones = true →
      ∀ z ∈ zones, 3 ≤ z.coordinates.length → ∀ p ∈ route,
        (3 : EReal) < distanceToPolygon p z.coordinates) ∧
    (∀ (zones : List Zone) (cands : List (List Point × ℝ)) (r : List Point),
      pickBest zones cands = some r → validateRoute r zones = true) := by
  constructor
  · intro route zones h z hz hlen p hp
    exact not_le.mp (((validateRoute_iff route zones).mp h) z hz hlen p hp)
  · intro zones cands r hr
    exact pickBestAux_valid zones cands none ⊤ (fun r' hr' => by cases hr') r hr

/-- Witness for C1: a one-point route 90° of longitude away from a
degenerate zone passes validation, so the theorem yields its clearance;
and `pickBest` keeps only that validated candidate. -/
theorem detour_clearance_3km_witness :
    ((3 : EReal) < distanceToPolygon ⟨0,0⟩ [⟨0,90⟩, ⟨0,90⟩, ⟨0,90⟩]) ∧
    validateRoute [(⟨0,0⟩ : Point)]
      [⟨"z1", "Z", ZoneCategory.HIGH_RISK, [⟨0,90⟩, ⟨0,90⟩, ⟨0,90⟩]⟩] = true := by
  have hcd : calculateDistance (⟨0,0⟩ : Point) ⟨0,90⟩ = 6371 * (90 * (Real.pi / 180)) := by
    rw [calculateDistance_comm]
    exact calculateDistance_equator_zero 90 (by norm_num) (by norm_num)
  have hdp : distanceToPolygon (⟨0,0⟩ : Point) [⟨0,90⟩, ⟨0,90⟩, ⟨0,90⟩]
      = ((6371 * (90 * (Real.pi / 180)) : ℝ) : EReal) := by
    rw [distanceToPolygon_point_triple, hcd]
  have hnot : ¬(distanceToPolygon (⟨0,0⟩ : Point) [⟨0,90⟩, ⟨0,90⟩, ⟨0,90⟩] ≤ (3 : EReal)) := by
    rw [hdp, ereal_coe_le_three, not_le]
    nlinarith [Real.pi_gt_d6]
  have hval : validateRoute [(⟨0,0⟩ : Point)]
      [⟨"z1", "Z", ZoneCategory.HIGH_RISK, [⟨0,90⟩, ⟨0,90⟩, ⟨0,90⟩]⟩] = true := by
    rw [validateRoute, if_pos (by simp), scanPointsValid, if_neg hnot]
    simp [scanPointsValid, validateRoute]
  refine ⟨?_, hval⟩
  exact detour_clearance_3km.1 [(⟨0,0⟩ : Point)]
    [⟨"z1", "Z", ZoneCategory.HIGH_RISK, [⟨0,90⟩, ⟨0,90⟩, ⟨0,90⟩]⟩] hval
    ⟨"z1", "Z", ZoneCategory.HIGH_RISK, [⟨0,90⟩, ⟨0,90⟩, ⟨0,90⟩]⟩
    (List.mem_singleton.mpr rfl) (by simp) ⟨0,0⟩ (List.mem_singleton.mpr rfl)

/-! ### Helper lemmas: special-angle evaluations for the redzone check -/

lemma atan2_zero_zero : atan2 0 0 = 0 := by simp [atan2]

lemma atan2_one_zero : atan2 1 0 = Real.pi / 2 := by norm_num [atan2]

lemma atan2_neg_one_zero : atan2 (-1) 0 = -(Real.pi / 2) := by norm_num [atan2]

lemma jsMod_eval (a b : ℝ) (k : ℤ) (hb : 0 < b) (ha : 0 ≤ a)
    (h1 : (k:ℝ) * b ≤ a) (h2 : a < ((k:ℝ) + 1) * b) : jsMod a b = a - b * k := by
  have hq : ⌊a / b⌋ = k := by
    rw [Int.floor_eq_iff]
    constructor
    · rw [le_div_iff₀ hb]; linarith
    · rw [div_lt_iff₀ hb]; linarith
  rw [jsMod, jsTrunc, if_pos (div_nonneg ha hb.le), hq]

/-- `calculateDistance ⟨0,0⟩ ⟨60,90⟩ = 6371·π/2`. -/
lemma cd_origin_A : calculateDistance ⟨0,0⟩ ⟨60,90⟩ = 6371 * (Real.pi / 2) := by
  have h1 : toRad ((60:ℝ) - 0) / 2 = Real.pi / 6 := by rw [toRad]; ring
  have h2 : toRad ((90:ℝ) - 0) / 2 = Real.pi / 4 := by rw [toRad]; ring
  have h3 : toRad (0:ℝ) = 0 := by rw [toRad]; ring
  have h4 : toRad (60:ℝ) = Real.pi / 3 := by rw [toRad]; ring
  simp only [calculateDistance]
  rw [h1, h2, h3, h4, Real.sin_pi_div_six, Real.cos_zero, Real.cos_pi_div_three,
    Real.sin_pi_div_four]
  have h5 : Real.sqrt 2 / 2 * (Real.sqrt 2 / 2) = 1/2 := by
    rw [div_mul_div_comm, Real.mul_self_sqrt (by norm_num : (0:ℝ) ≤ 2)]
    norm_num
  rw [show (1:ℝ)/2 * (1/2) + 1 * (1/2) * (Real.sqrt 2 / 2) * (Real.sqrt 2 / 2)
      = 1/4 + 1/2 * (Real.sqrt 2 / 2 * (Real.sqrt 2 / 2)) by ring]
  rw [h5]
  norm_num
  have hpos : (0:ℝ) < (Real.sqrt 2)⁻¹ :=
    inv_pos.mpr (Real.sqrt_pos.mpr (by norm_num))
  rw [atan2_of_pos _ _ hpos, div_self (ne_of_gt hpos), Real.arctan_one]
  ring

/-- `calculateDistance ⟨0,0⟩ ⟨-60,-90⟩ = 6371·π/2`. -/
lemma cd_origin_B : calculateDistance ⟨0,0⟩ ⟨-60,-90⟩ = 6371 * (Real.pi / 2) := by
  have h1 : toRad ((-60:ℝ) - 0) / 2 = -(Real.pi / 6) := by rw [toRad]; ring
  have h2 : toRad ((-90:ℝ) - 0) / 2 = -(Real.pi / 4) := by rw [toRad]; ring
  have h3 : toRad (0:ℝ) = 0 := by rw [toRad]; ring
  have h4 : toRad (-60:ℝ) = -(Real.pi / 3) := by rw [toRad]; ring
  simp only [calculateDistance]
  rw [h1, h2, h3, h4, Real.sin_neg, Real.sin_neg, Real.cos_neg, Real.sin_pi_div_six,
    Real.cos_zero, Real.cos_pi_div_three, Real.sin_pi_div_four]
  have h5 : Real.sqrt 2 / 2 * (Real.sqrt 2 / 2) = 1/2 := by
    rw [div_mul_div_comm, Real.mul_self_sqrt (by norm_num : (0:ℝ) ≤ 2)]
    norm_num
  rw [show -((1:ℝ)/2) * -(1/2) + 1 * (1/2) * -(Real.sqrt 2 / 2) * -(Real.sqrt 2 / 2)
      = 1/4 + 1/2 * (Real.sqrt 2 / 2 * (Real.sqrt 2 / 2)) by ring]
  rw [h5]
  norm_num
  have hpos : (0:ℝ) < (Real.sqrt 2)⁻¹ :=
    inv_pos.mpr (Real.sqrt_pos.mpr (by norm_num))
  rw [atan2_of_pos _ _ hpos, div_self (ne_of_gt hpos), Real.arctan_one]
  ring

/-- `calculateDistance ⟨60,90⟩ ⟨-60,-90⟩ = 6371·π` (antipodal). -/
lemma cd_A_B : calculateDistance ⟨60,90⟩ ⟨-60,-90⟩ = 6371 * Real.pi := by
  have h1 : toRad ((-60:ℝ) - 60) / 2 = -(Real.pi / 3) := by rw [toRad]; ring
  have h2 : toRad ((-90:ℝ) - 90) / 2 = -(Real.pi / 2) := by rw [toRad]; ring
  have h3 : toRad (60:ℝ) = Real.pi / 3 := by rw [toRad]; ring
  have h4 : toRad (-60:ℝ) = -(Real.pi / 3) := by rw [toRad]; ring
  simp only [calculateDistance]
  rw [h1, h2, h3, h4, Real.sin_neg, Real.sin_neg, Real.cos_neg, Real.sin_pi_div_three,
    Real.cos_pi_div_three, Real.sin_pi_div_two]
  have h5 : Real.sqrt 3 / 2 * (Real.sqrt 3 / 2) = 3/4 := by
    rw [div_mul_div_comm, Real.mul_self_sqrt (by norm_num : (0:ℝ) ≤ 3)]
    norm_num
  rw [show -(Real.sqrt 3 / 2) * -(Real.sqrt 3 / 2) + 1/2 * (1/2) * -(1:ℝ) * -1
      = Real.sqrt 3 / 2 * (Real.sqrt 3 / 2) + 1/4 by ring]
  rw [h5]
  norm_num
  rw [atan2_one_zero]
  ring

/-- Bearing from `(60,90)` to `(-60,-90)` is 0 (the `atan2(0,0)` case). -/
lemma bearing_A_B : calculateBearing ⟨60,90⟩ ⟨-60,-90⟩ = 0 := by
  have hd : toRad (-90:ℝ) - toRad 90 = -Real.pi := by rw [toRad, toRad]; ring
  have hy : Real.sin (toRad (-90:ℝ) - toRad 90) * Real.cos (toRad (-60:ℝ)) = 0 := by
    rw [hd, Real.sin_neg, Real.sin_pi]; ring
  have hx : Real.cos (toRad (60:ℝ)) * Real.sin (toRad (-60:ℝ)) -
      Real.sin (toRad (60:ℝ)) * Real.cos (toRad (-60:ℝ)) *
        Real.cos (toRad (-90:ℝ) - toRad 90) = 0 := by
    rw [hd, show toRad (60:ℝ) = Real.pi / 3 by rw [toRad]; ring,
      show toRad (-60:ℝ) = -(Real.pi / 3) by rw [toRad]; ring,
      Real.sin_neg, Real.cos_neg, Real.cos_neg, Real.cos_pi,
      Real.sin_pi_div_three, Real.cos_pi_div_three]
    ring
  simp only [calculateBearing]
  rw [hy, hx, atan2_zero_zero]
  norm_num
  rw [jsMod_eval 360 360 1 (by norm_num) (by norm_num) (by norm_num) (by norm_num)]
  norm_num

/-- Bearing from `(60,90)` to the origin is 270. -/
lemma bearing_A_origin : calculateBearing ⟨60,90⟩ ⟨0,0⟩ = 270 := by
  have hd : toRad (0:ℝ) - toRad 90 = -(Real.pi / 2) := by rw [toRad, toRad]; ring
  have hy : Real.sin (toRad (0:ℝ) - toRad 90) * Real.cos (toRad (0:ℝ)) = -1 := by
    rw [hd, Real.sin_neg, Real.sin_pi_div_two,
      show toRad (0:ℝ) = 0 by rw [toRad]; ring, Real.cos_zero]
    ring
  have hx : Real.cos (toRad (60:ℝ)) * Real.sin (toRad (0:ℝ)) -
      Real.sin (toRad (60:ℝ)) * Real.cos (toRad (0:ℝ)) *
        Real.cos (toRad (0:ℝ) - toRad 90) = 0 := by
    rw [hd, show toRad (0:ℝ) = 0 by rw [toRad]; ring, Real.sin_zero,
      Real.cos_neg, Real.cos_pi_div_two]
    ring
  simp only [calculateBearing]
  rw [hy, hx, atan2_neg_one_zero]
  rw [show -(Real.pi / 2) * 180 / Real.pi + 360 = 270 by
    field_simp
    ring]
  rw [jsMod_eval 270 360 0 (by norm_num) (by norm_num) (by norm_num) (by norm_num)]
  norm_num

/-- Bearing from `(-60,-90)` to `(60,90)` is 0 (the `atan2(0,0)` case). -/
lemma bearing_B_A : calculateBearing ⟨-60,-90⟩ ⟨60,90⟩ = 0 := by
  have hd : toRad (90:ℝ) - toRad (-90) = Real.pi := by rw [toRad, toRad]; ring
  have hy : Real.sin (toRad (90:ℝ) - toRad (-90)) * Real.cos (toRad (60:ℝ)) = 0 := by
    rw [hd, Real.sin_pi]; ring
  have hx : Real.cos (toRad (-60:ℝ)) * Real.sin (toRad (60:ℝ)) -
      Real.sin (toRad (-60:ℝ)) * Real.cos (toRad (60:ℝ)) *
        Real.cos (toRad (90:ℝ) - toRad (-90)) = 0 := by
    rw [hd, show toRad (60:ℝ) = Real.pi / 3 by rw [toRad]; ring,
      show toRad (-60:ℝ) = -(Real.pi / 3) by rw [toRad]; ring,
      Real.sin_neg, Real.cos_neg, Real.cos_pi,
      Real.sin_pi_div_three, Real.cos_pi_div_three]
    ring
  simp only [calculateBearing]
  rw [hy, hx, atan2_zero_zero]
  norm_num
  rw [jsMod_eval 360 360 1 (by norm_num) (by norm_num) (by norm_num) (by norm_num)]
  norm_num

/-- Bearing from `(-60,-90)` to the origin is 90. -/
lemma bearing_B_origin : calculateBearing ⟨-60,-90⟩ ⟨0,0⟩ = 90 := by
  have hd : toRad (0:ℝ) - toRad (-90) = Real.pi / 2 := by rw [toRad, toRad]; ring
  have hy : Real.sin (toRad (0:ℝ) - toRad (-90)) * Real.cos (toRad (0:ℝ)) = 1 := by
    rw [hd, Real.sin_pi_div_two, show toRad (0:ℝ) = 0 by rw [toRad]; ring, Real.cos_zero]
    ring
  have hx : Real.cos (toRad (-60:ℝ)) * Real.sin (toRad (0:ℝ)) -
      Real.sin (toRad (-60:ℝ)) * Real.cos (toRad (0:ℝ)) *
        Real.cos (toRad (0:ℝ) - toRad (-90)) = 0 := by
    rw [hd, show toRad (0:ℝ) = 0 by rw [toRad]; ring, Real.sin_zero,
      Real.cos_pi_div_two]
    ring
  simp only [calculateBearing]
  rw [hy, hx, atan2_one_zero]
  rw [show Real.pi / 2 * 180 / Real.pi + 360 = 450 by
    field_simp
    ring]
  rw [jsMod_eval 450 360 1 (by norm_num) (by norm_num) (by norm_num) (by norm_num)]
  norm_num

/-- Distance from the origin to the segment `(60,90)→(-60,-90)`:
the perpendicular branch is taken and returns `6371·π/2`. -/
lemma dseg_origin_A_B :
    distanceToSegment ⟨0,0⟩ ⟨60,90⟩ ⟨-60,-90⟩ = 6371 * (Real.pi / 2) := by
  simp only [distanceToSegment]
  rw [cd_origin_A, cd_origin_B, cd_A_B, bearing_A_B, bearing_A_origin]
  rw [if_neg (by nlinarith [Real.pi_gt_three] : ¬(6371 * Real.pi < 0.001))]
  rw [show |(0:ℝ) - 270| = 270 by norm_num]
  rw [show min (270:ℝ) (360 - 270) = 90 by norm_num]
  rw [show toRad (90:ℝ) = Real.pi / 2 by rw [toRad]; ring]
  rw [Real.sin_pi_div_two, Real.cos_pi_div_two]
  rw [if_neg (by norm_num : ¬(6371 * (Real.pi / 2) * 0 < 0))]
  rw [if_neg (by nlinarith [Real.pi_pos] : ¬(6371 * Real.pi < 6371 * (Real.pi / 2) * 0))]
  rw [mul_one, abs_of_nonneg (by positivity)]

/-- Distance from the origin to the segment `(-60,-90)→(60,90)`:
again the perpendicular branch, returning `6371·π/2`. -/
lemma dseg_origin_B_A :
    distanceToSegment ⟨0,0⟩ ⟨-60,-90⟩ ⟨60,90⟩ = 6371 * (Real.pi / 2) := by
  have hBA : calculateDistance (⟨-60,-90⟩ : Point) ⟨60,90⟩ = 6371 * Real.pi := by
    rw [calculateDistance_comm]; exact cd_A_B
  simp only [distanceToSegment]
  rw [cd_origin_B, cd_origin_A, hBA, bearing_B_A, bearing_B_origin]
  rw [if_neg (by nlinarith [Real.pi_gt_three] : ¬(6371 * Real.pi < 0.001))]
  rw [show |(0:ℝ) - 90| = 90 by norm_num]
  rw [show min (90:ℝ) (360 - 90) = 90 by norm_num]
  rw [show toRad (90:ℝ) = Real.pi / 2 by rw [toRad]; ring]
  rw [Real.sin_pi_div_two, Real.cos_pi_div_two]
  rw [if_neg (by norm_num : ¬(6371 * (Real.pi / 2) * 0 < 0))]
  rw [if_neg (by nlinarith [Real.pi_pos] : ¬(6371 * Real.pi < 6371 * (Real.pi / 2) * 0))]
  rw [mul_one, abs_of_nonneg (by positivity)]

/-- The polygon `[(60,90),(60,90),(-60,-90),(-60,-90)]` — whose centroid is
the origin — has boundary distance `6371·π/2` from the origin. -/
lemma dp_origin_AABB :
    distanceToPolygon ⟨0,0⟩ [⟨60,90⟩, ⟨60,90⟩, ⟨-60,-90⟩, ⟨-60,-90⟩]
      = ((6371 * (Real.pi / 2) : ℝ) : EReal) := by
  rw [distanceToPolygon, if_neg (by simp)]
  have he : polygonEdges [(⟨60,90⟩ : Point), ⟨60,90⟩, ⟨-60,-90⟩, ⟨-60,-90⟩]
      = [(⟨60,90⟩, ⟨60,90⟩), (⟨60,90⟩, ⟨-60,-90⟩),
         (⟨-60,-90⟩, ⟨-60,-90⟩), (⟨-60,-90⟩, ⟨60,90⟩)] := by
    simp [polygonEdges, List.range_succ]
  rw [he]
  simp only [List.map]
  rw [distanceToSegment_degenerate ⟨0,0⟩ ⟨60,90⟩,
    distanceToSegment_degenerate ⟨0,0⟩ ⟨-60,-90⟩,
    dseg_origin_A_B, dseg_origin_B_A, cd_origin_A, cd_origin_B]
  show min (min (min (min ⊤ _) _) _) _ = _
  rw [min_eq_right le_top, min_self, min_self, min_self]

lemma findRedzoneHit_first (position : Point) :
    ∀ l : List Zone,
      (∀ z, findRedzoneHit position l = some z →
        (3 ≤ z.coordinates.length ∧
          min ((calculateDistance position (z.coordinates.getD 0 default) : ℝ) : EReal)
            (distanceToPolygon position z.coordinates) ≤ (10 : EReal)) ∧
        ∃ i, l.get? i = some z ∧ ∀ j w, j < i → l.get? j = some w →
          ¬(3 ≤ w.coordinates.length ∧
            min ((calculateDistance position (w.coordinates.getD 0 default) : ℝ) : EReal)
              (distanceToPolygon position w.coordinates) ≤ (10 : EReal))) ∧
      (findRedzoneHit position l = none ↔ ∀ z ∈ l,
        ¬(3 ≤ z.coordinates.length ∧
          min ((calculateDistance position (z.coordinates.getD 0 default) : ℝ) : EReal)
            (distanceToPolygon position z.coordinates) ≤ (10 : EReal))) := by
  intro l
  induction l with
  | nil =>
    exact ⟨fun z hz => by simp [findRedzoneHit] at hz, by simp [findRedzoneHit]⟩
  | cons z zs ih =>
    by_cases hc : 3 ≤ z.coordinates.length ∧
        min ((calculateDistance position (z.coordinates.getD 0 default) : ℝ) : EReal)
          (distanceToPolygon position z.coordinates) ≤ (10 : EReal)
    · constructor
      · intro w hw
        rw [findRedzoneHit, if_pos hc] at hw
        obtain rfl : z = w := by injection hw
        exact ⟨hc, 0, rfl, fun j u hj _ => absurd hj (Nat.not_lt_zero j)⟩
      · rw [findRedzoneHit, if_pos hc]
        constructor
        · intro h; exact absurd h (by simp)
        · intro hall; exact absurd hc (hall z (List.mem_cons_self z zs))
    · constructor
      · intro w hw
        rw [findRedzoneHit, if_neg hc] at hw
        obtain ⟨h1, i, hi, hfirst⟩ := (ih.1) w hw
        refine ⟨h1, i + 1, hi, fun j u hj hget => ?_⟩
        match j with
        | 0 =>
          obtain rfl : z = u := by injection hget
          exact hc
        | j + 1 =>
          exact hfirst j u (Nat.lt_of_succ_lt_succ hj) hget
      · rw [findRedzoneHit, if_neg hc, ih.2]
        constructor
        · intro hall w hw
          rcases List.mem_cons.mp hw with rfl | hmem
          · exact hc
          · exact hall w hmem
        · intro hall w hmem
          exact hall w (List.mem_cons_of_mem z hmem)

/-- C2 amended: the proximity value the tick compares against 10 km is
`min(distance(position, zone.coordinates[0]), distance to the polygon
boundary)` — the *first polygon coordinate*, not the centroid — and the
alert fires on the first category-filtered zone (list order) with at
least 3 coordinates whose value is ≤ 10 km, and only when no redzone
alert is latched, the truck is *not on a detour*, and the zone list is
non-empty. -/
theorem redzoneCheck_first_hit (position : Point) (latch : Option String)
    (onDetour : Bool) (zones : List Zone) :
    (∀ z, redzoneCheck position latch onDetour zones = some z →
      latch = none ∧ onDetour = false ∧
      (3 ≤ z.coordinates.length ∧
        min ((calculateDistance position (z.coordinates.getD 0 default) : ℝ) : EReal)
          (distanceToPolygon position z.coordinates) ≤ (10 : EReal)) ∧
      ∃ i, (zones.filter fun w => isRedzoneCategory w.category).get? i = some z ∧
        ∀ j w, j < i →
          (zones.filter fun w => isRedzoneCategory w.category).get? j = some w →
          ¬(3 ≤ w.coordinates.length ∧
            min ((calculateDistance position (w.coordinates.getD 0 default) : ℝ) : EReal)
              (distanceToPolygon position w.coordinates) ≤ (10 : EReal))) ∧
    ((latch = none ∧ onDetour = false ∧ 0 < zones.length) →
      (redzoneCheck position latch onDetour zones = none ↔
        ∀ z ∈ zones.filter fun w => isRedzoneCategory w.category,
          ¬(3 ≤ z.coordinates.length ∧
            min ((calculateDistance position (z.coordinates.getD 0 default) : ℝ) : EReal)
              (distanceToPolygon position z.coordinates) ≤ (10 : EReal)))) ∧
    (¬(latch = none ∧ onDetour = false ∧ 0 < zones.length) →
      redzoneCheck position latch onDetour zones = none) := by
  refine ⟨?_, ?_, ?_⟩
  · intro z hz
    rw [redzoneCheck] at hz
    by_cases hcond : latch = none ∧ onDetour = false ∧ 0 < zones.length
    · rw [if_pos hcond] at hz
      obtain ⟨h1, hfirst⟩ := ((findRedzoneHit_first position
        (zones.filter fun w => isRedzoneCategory w.category)).1) z hz
      exact ⟨hcond.1, hcond.2.1, h1, hfirst⟩
    · rw [if_neg hcond] at hz
      cases hz
  · intro hc
    rw [redzoneCheck, if_pos hc]
    exact (findRedzoneHit_first position
      (zones.filter fun w => isRedzoneCategory w.category)).2
  · intro hnc
    rw [redzoneCheck, if_neg hnc]

/-- C2 counterexample.  Part 1 (centroid): for the HIGH_RISK zone with
coordinates `[(60,90),(60,90),(-60,-90),(-60,-90)]` — whose centroid is
exactly the tick position `(0,0)` — the claim's value
`min(distance(position, centroid), distance(position, boundary))` is
`0 ≤ 10` with nothing latched, so the claim predicts a fire; but the tick
fires nothing, because the code uses `zone.coordinates[0]` (distance
`6371·π/2 ≈ 10008 km`) instead of the centroid.  Part 2 (detour): with
`isOnDetour = true`, the value is `0 ≤ 10` and nothing is latched, yet no
alert fires — the code also requires `!isOnDetour`, which the claim
omits. -/
theorem redzoneCheck_counterexample :
    (redzoneCheck ⟨0,0⟩ none false
        [⟨"zC", "C", ZoneCategory.HIGH_RISK,
          [⟨60,90⟩, ⟨60,90⟩, ⟨-60,-90⟩, ⟨-60,-90⟩]⟩] = none ∧
      specZoneCentroid [(⟨60,90⟩ : Point), ⟨60,90⟩, ⟨-60,-90⟩, ⟨-60,-90⟩] = ⟨0,0⟩ ∧
      min ((calculateDistance ⟨0,0⟩
            (specZoneCentroid [(⟨60,90⟩ : Point), ⟨60,90⟩, ⟨-60,-90⟩, ⟨-60,-90⟩]) : ℝ) : EReal)
          (distanceToPolygon ⟨0,0⟩ [⟨60,90⟩, ⟨60,90⟩, ⟨-60,-90⟩, ⟨-60,-90⟩]) ≤ (10 : EReal)) ∧
    (redzoneCheck ⟨0,0⟩ none true
        [⟨"zD", "D", ZoneCategory.THEFT, [⟨0,0⟩, ⟨0,0⟩, ⟨0,0⟩]⟩] = none ∧
      min ((calculateDistance ⟨0,0⟩
            (([(⟨0,0⟩ : Point), ⟨0,0⟩, ⟨0,0⟩]).getD 0 default) : ℝ) : EReal)
          (distanceToPolygon ⟨0,0⟩ [⟨0,0⟩, ⟨0,0⟩, ⟨0,0⟩]) ≤ (10 : EReal)) := by
  have hcentroid : specZoneCentroid [(⟨60,90⟩ : Point), ⟨60,90⟩, ⟨-60,-90⟩, ⟨-60,-90⟩]
      = ⟨0,0⟩ := by
    simp only [specZoneCentroid, List.map, List.sum_cons, List.sum_nil, List.length_cons,
      List.length_nil]
    norm_num
  have hnotmin : ¬(min ((calculateDistance ⟨0,0⟩ ⟨60,90⟩ : ℝ) : EReal)
      (distanceToPolygon ⟨0,0⟩ [⟨60,90⟩, ⟨60,90⟩, ⟨-60,-90⟩, ⟨-60,-90⟩]) ≤ (10 : EReal)) := by
    rw [cd_origin_A, dp_origin_AABB, min_self, ereal_coe_le_ten, not_le]
    nlinarith [Real.pi_gt_three]
  refine ⟨⟨?_, hcentroid, ?_⟩, ⟨?_, ?_⟩⟩
  · rw [redzoneCheck, if_pos ⟨rfl, rfl, by norm_num⟩]
    have hf : ([⟨"zC", "C", ZoneCategory.HIGH_RISK,
        [⟨60,90⟩, ⟨60,90⟩, ⟨-60,-90⟩, ⟨-60,-90⟩]⟩] : List Zone).filter
          (fun z => isRedzoneCategory z.category)
        = [⟨"zC", "C", ZoneCategory.HIGH_RISK,
            [⟨60,90⟩, ⟨60,90⟩, ⟨-60,-90⟩, ⟨-60,-90⟩]⟩] := rfl
    rw [hf, findRedzoneHit, if_neg ?_, findRedzoneHit]
    rw [show ([(⟨60,90⟩ : Point), ⟨60,90⟩, ⟨-60,-90⟩, ⟨-60,-90⟩]).getD 0 default
        = ⟨60,90⟩ from rfl]
    rintro ⟨-, hmin⟩
    exact hnotmin hmin
  · rw [hcentroid, calculateDistance_self]
    exact le_trans (min_le_left _ _) ((ereal_coe_le_ten 0).mpr (by norm_num))
  · rw [redzoneCheck, if_neg (by simp)]
  · rw [show ([(⟨0,0⟩ : Point), ⟨0,0⟩, ⟨0,0⟩]).getD 0 default = ⟨0,0⟩ from rfl,
      calculateDistance_self]
    exact le_trans (min_le_left _ _) ((ereal_coe_le_ten 0).mpr (by norm_num))

/-- Witness for the C2 amended theorem: at the origin, a THEFT zone whose
first coordinate is the position itself fires, and the theorem's
characterization applies to it. -/
theorem redzoneCheck_first_hit_witness :
    (none : Option String) = none ∧ false = false ∧
    (3 ≤ (Zone.coordinates ⟨"zw", "W", ZoneCategory.THEFT,
        [⟨0,0⟩, ⟨0,0⟩, ⟨0,0⟩]⟩).length ∧
      min ((calculateDistance ⟨0,0⟩
            ((Zone.coordinates ⟨"zw", "W", ZoneCategory.THEFT,
              [⟨0,0⟩, ⟨0,0⟩, ⟨0,0⟩]⟩).getD 0 default) : ℝ) : EReal)
        (distanceToPolygon ⟨0,0⟩ (Zone.coordinates ⟨"zw", "W", ZoneCategory.THEFT,
          [⟨0,0⟩, ⟨0,0⟩, ⟨0,0⟩]⟩)) ≤ (10 : EReal)) ∧
    ∃ i, (([⟨"zw", "W", ZoneCategory.THEFT, [⟨0,0⟩, ⟨0,0⟩, ⟨0,0⟩]⟩] : List Zone).filter
        fun w => isRedzoneCategory w.category).get? i
          = some ⟨"zw", "W", ZoneCategory.THEFT, [⟨0,0⟩, ⟨0,0⟩, ⟨0,0⟩]⟩ ∧
      ∀ j w, j < i →
        (([⟨"zw", "W", ZoneCategory.THEFT, [⟨0,0⟩, ⟨0,0⟩, ⟨0,0⟩]⟩] : List Zone).filter
          fun w => isRedzoneCategory w.category).get? j = some w →
        ¬(3 ≤ w.coordinates.length ∧
          min ((calculateDistance ⟨0,0⟩ (w.coordinates.getD 0 default) : ℝ) : EReal)
            (distanceToPolygon ⟨0,0⟩ w.coordinates) ≤ (10 : EReal)) := by
  have hminle : min ((calculateDistance ⟨0,0⟩
        (([(⟨0,0⟩ : Point), ⟨0,0⟩, ⟨0,0⟩]).getD 0 default) : ℝ) : EReal)
      (distanceToPolygon ⟨0,0⟩ [⟨0,0⟩, ⟨0,0⟩, ⟨0,0⟩]) ≤ (10 : EReal) := by
    rw [show ([(⟨0,0⟩ : Point), ⟨0,0⟩, ⟨0,0⟩]).getD 0 default = ⟨0,0⟩ from rfl,
      calculateDistance_self]
    exact le_trans (min_le_left _ _) ((ereal_coe_le_ten 0).mpr (by norm_num))
  have hfire : redzoneCheck ⟨0,0⟩ none false
      [⟨"zw", "W", ZoneCategory.THEFT, [⟨0,0⟩, ⟨0,0⟩, ⟨0,0⟩]⟩]
      = some ⟨"zw", "W", ZoneCategory.THEFT, [⟨0,0⟩, ⟨0,0⟩, ⟨0,0⟩]⟩ := by
    rw [redzoneCheck, if_pos ⟨rfl, rfl, by norm_num⟩]
    rw [show ([⟨"zw", "W", ZoneCategory.THEFT, [⟨0,0⟩, ⟨0,0⟩, ⟨0,0⟩]⟩] : List Zone).filter
        (fun z => isRedzoneCategory z.category)
        = [⟨"zw", "W", ZoneCategory.THEFT, [⟨0,0⟩, ⟨0,0⟩, ⟨0,0⟩]⟩] from rfl]
    rw [findRedzoneHit, if_pos ⟨by simp, hminle⟩]
  exact (redzoneCheck_first_hit ⟨0,0⟩ none false
    [⟨"zw", "W", ZoneCategory.THEFT, [⟨0,0⟩, ⟨0,0⟩, ⟨0,0⟩]⟩]).1
    ⟨"zw", "W", ZoneCategory.THEFT, [⟨0,0⟩, ⟨0,0⟩, ⟨0,0⟩]⟩ hfire

lemma tickMain_latch_mono (s : SimState) (position : Point) (np : ℝ)
    (h : s.geofenceEntered = true) :
    (tickMain s position np).state.geofenceEntered = true ∧
      (tickMain s position np).geofenceFired = false := by
  have hg : ¬(calculateDistance position s.destination ≤ GEOFENCE_RADIUS_KM ∧
      s.geofenceEntered = false) := by
    rintro ⟨-, hc⟩
    rw [h] at hc
    cases hc
  simp only [tickMain, if_neg hg]
  refine ⟨?_, decide_eq_false hg⟩
  rcases hrz : redzoneCheck position s.redzoneAlertTriggered s.isOnDetour s.zones with - | z <;>
    by_cases hnp : (1:ℝ) ≤ np <;>
      simp [hrz, if_pos, if_neg, hnp, h]

lemma tickMain_fired_latch (s : SimState) (position : Point) (np : ℝ) :
    (tickMain s position np).geofenceFired = true →
      (tickMain s position np).state.geofenceEntered = true := by
  intro hf
  have h' : decide (calculateDistance position s.destination ≤ GEOFENCE_RADIUS_KM ∧
      s.geofenceEntered = false) = true := hf
  have hg := of_decide_eq_true h'
  simp only [tickMain, if_pos hg]
  rcases hrz : redzoneCheck position s.redzoneAlertTriggered s.isOnDetour s.zones with - | z <;>
    by_cases hnp : (1:ℝ) ≤ np <;>
      simp [hrz, if_pos, if_neg, hnp]

lemma tick_latch_mono (s : SimState) (Δ : ℝ) (h : s.geofenceEntered = true) :
    (simulationTick s Δ).state.geofenceEntered = true ∧
      (simulationTick s Δ).geofenceFired = false := by
  simp only [simulationTick]
  split
  · exact ⟨h, rfl⟩
  · split
    · exact ⟨h, rfl⟩
    · split
      · split
        · exact ⟨h, rfl⟩
        · exact ⟨h, rfl⟩
      · split
        · exact ⟨h, rfl⟩
        · exact tickMain_latch_mono s _ _ h

lemma tick_fired_latch (s : SimState) (Δ : ℝ) :
    (simulationTick s Δ).geofenceFired = true →
      (simulationTick s Δ).state.geofenceEntered = true := by
  simp only [simulationTick]
  split
  · intro h; cases h
  · split
    · intro h; cases h
    · split
      · split
        · intro h; cases h
        · intro h; cases h
      · split
        · intro h; cases h
        · exact tickMain_fired_latch s _ _

lemma runTicks_le_one (Δs : List ℝ) :
    ∀ s : SimState, (runTicks s Δs).2 ≤ 1 ∧
      (s.geofenceEntered = true → (runTicks s Δs).2 = 0) := by
  induction Δs with
  | nil =>
    intro s
    constructor
    · simp [runTicks]
    · intro _; simp [runTicks]
  | cons d rest ih =>
    intro s
    rw [runTicks]
    by_cases hl : s.geofenceEntered = true
    · obtain ⟨hmono, hnof⟩ := tick_latch_mono s d hl
      rw [hnof]
      have h0 := (ih (simulationTick s d).state).2 hmono
      constructor
      · simp [h0]
      · intro _; simp [h0]
    · cases hf : (simulationTick s d).geofenceFired
      · have h1 := (ih (simulationTick s d).state).1
        constructor
        · simpa using h1
        · intro hc; exact absurd hc hl
      · have hlatch := tick_fired_latch s d hf
        have h0 := (ih (simulationTick s d).state).2 hlatch
        constructor
        · simp [h0]
        · intro hc; exact absurd hc hl

/-- C7: the geofence "entered" action is one-shot.  Once the
`geofenceEntered` latch is set, every later tick keeps it set and fires
nothing; over any sequence of ticks (no reset) the action fires at most
once; and only the explicit reset clears the latch. -/
theorem geofence_one_shot :
    (∀ (s : SimState) (Δ : ℝ), s.geofenceEntered = true →
      (simulationTick s Δ).state.geofenceEntered = true ∧
        (simulationTick s Δ).geofenceFired = false) ∧
    (∀ (s : SimState) (Δs : List ℝ), (runTicks s Δs).2 ≤ 1) ∧
    (∀ (s : SimState) (ns : List Stoppage), (handleReset s ns).geofenceEntered = false) :=
  ⟨fun s Δ h => tick_latch_mono s Δ h,
   fun s Δs => (runTicks_le_one Δs s).1,
   fun _ _ => rfl⟩

/-- Witness for C7 at a concrete latched state. -/
theorem geofence_one_shot_witness :
    (simulationTick ⟨false, false, 1, 0, [], 0, [], none, none,
        JourneyStatus.NOT_STARTED, true, false, none, none, false, none,
        ⟨0,0⟩, ⟨0,0⟩, ⟨0,0⟩, []⟩ 1).state.geofenceEntered = true ∧
      (simulationTick ⟨false, false, 1, 0, [], 0, [], none, none,
        JourneyStatus.NOT_STARTED, true, false, none, none, false, none,
        ⟨0,0⟩, ⟨0,0⟩, ⟨0,0⟩, []⟩ 1).geofenceFired = false :=
  geofence_one_shot.1 _ 1 rfl

end LoadAssign
